import Mathlib

/-!
Verification development for the deeper trace-expansion engine.

The Go source is shallowly embedded: pure functions become Lean
functions, stateful methods become explicit state passing, wall-clock
times and durations become integers (nanoseconds), and the Go `regexp`
library is embedded as a small Brzozowski-derivative matcher over
regular-expression syntax trees transliterated from the source
patterns.  All Go regexes in scope are start-anchored; patterns that
also end in `$` are matched against the whole string, the others
against an arbitrary prefix (modelled by appending an unrestricted
tail).
-/

/-- Regular expressions over characters, with character classes given
by decidable predicates.  This embeds the fragment of Go regexp syntax
used by the source patterns. -/
inductive RE where
  | emp : RE
  | eps : RE
  | cls : (Char → Bool) → RE
  | seq : RE → RE → RE
  | alt : RE → RE → RE
  | star : RE → RE

namespace RE

/-- Does the regular expression accept the empty string. -/
def nullable : RE → Bool
  | emp => false
  | eps => true
  | cls _ => false
  | seq a b => nullable a && nullable b
  | alt a b => nullable a || nullable b
  | star _ => true

/-- Brzozowski derivative with respect to one character. -/
def deriv : RE → Char → RE
  | emp, _ => emp
  | eps, _ => emp
  | cls p, c => if p c then eps else emp
  | seq a b, c => if nullable a then alt (seq (deriv a c) b) (deriv b c) else seq (deriv a c) b
  | alt a b, c => alt (deriv a c) (deriv b c)
  | star a, c => seq (deriv a c) (star a)

/-- Run the matcher over a list of characters. -/
def matchList : RE → List Char → Bool
  | r, [] => nullable r
  | r, c :: cs => matchList (deriv r c) cs

/-- Whole-string match (the Go patterns in scope are `^...$`-anchored). -/
def matchString (r : RE) (s : String) : Bool := matchList r s.data

/-- Single literal character. -/
def chr (c : Char) : RE := cls (fun x => x == c)

/-- Literal string. -/
def str (s : String) : RE := s.data.foldr (fun c r => seq (chr c) r) eps

/-- Any single character, used to pad patterns that are anchored only
at the start (`MatchString` then accepts any suffix). -/
def anyChar : RE := cls (fun _ => true)

/-- Optional occurrence, Go `?`. -/
def opt (r : RE) : RE := alt eps r

/-- One or more occurrences, Go `+`. -/
def plus (r : RE) : RE := seq r (star r)

/-- Exactly `n` occurrences. -/
def repExact : Nat → RE → RE
  | 0, _ => eps
  | n + 1, r => seq r (repExact n r)

/-- At most `n` occurrences. -/
def repUpTo : Nat → RE → RE
  | 0, _ => eps
  | n + 1, r => seq (opt r) (repUpTo n r)

/-- Between `lo` and `hi` occurrences, Go `{lo,hi}`. -/
def repRange (lo hi : Nat) (r : RE) : RE := seq (repExact lo r) (repUpTo (hi - lo) r)

/-- At least `n` occurrences, Go `{n,}`. -/
def repAtLeast (n : Nat) (r : RE) : RE := seq (repExact n r) (star r)

end RE

/-- Character lies in an inclusive code-point range. -/
def charInRange (lo hi : Nat) (c : Char) : Bool := decide (lo ≤ c.toNat ∧ c.toNat ≤ hi)

/-- Go class `[a-z]`. -/
def isLowerAlpha (c : Char) : Bool := charInRange 97 122 c

/-- Go class `[A-Z]`. -/
def isUpperAlpha (c : Char) : Bool := charInRange 65 90 c

/-- Go class `[0-9]`, also `\d`. -/
def isDigitCh (c : Char) : Bool := charInRange 48 57 c

/-- Go class `[a-zA-Z]`. -/
def isAlphaCh (c : Char) : Bool := isLowerAlpha c || isUpperAlpha c

/-- Go class `[a-zA-Z0-9]`. -/
def isAlnumCh (c : Char) : Bool := isAlphaCh c || isDigitCh c

/-- Go class `[A-z]` as written in the source address pattern: the
ASCII code-point range 65..122, which also contains the six punctuation
characters between `Z` and `a`. -/
def isAtoz (c : Char) : Bool := charInRange 65 122 c

/-- Go perl class `\s` in RE2: tab, newline, form feed, carriage
return and space. -/
def isSpaceCh (c : Char) : Bool :=
  c == ' ' || c.toNat == 9 || c.toNat == 10 || c.toNat == 12 || c.toNat == 13

/-- Go class `[0-9A-Fa-f]`. -/
def isHexCh (c : Char) : Bool := isDigitCh c || charInRange 65 70 c || charInRange 97 102 c

/-- Go class `[a-km-zA-HJ-NP-Z1-9]` of the bitcoin pattern. -/
def isBase58Ch (c : Char) : Bool :=
  charInRange 97 107 c || charInRange 109 122 c || charInRange 65 72 c ||
    charInRange 74 78 c || charInRange 80 90 c || charInRange 49 57 c

namespace entities

/-- Pattern `^[a-zA-Z0-9._%+-]+@[a-zA-Z0-9.-]+\.[a-zA-Z]{2,}$` of `isEmail`. -/
def emailRegex : RE :=
  .seq (.plus (.cls fun c => isAlnumCh c || c == '.' || c == '_' || c == '%' || c == '+' || c == '-'))
    (.seq (RE.chr '@')
      (.seq (.plus (.cls fun c => isAlnumCh c || c == '.' || c == '-'))
        (.seq (RE.chr '.') (RE.repAtLeast 2 (.cls isAlphaCh)))))

/-- Separator class `[-. ]` of the phone pattern. -/
def phoneSep : RE := .cls fun c => c == '-' || c == '.' || c == ' '

/-- Pattern `^(\+?(\d{1,3}))?[-. ]?(\(?\d{3}\)?[-. ]?)?(\d{3})[-. ]?(\d{4})$` of `isPhone`. -/
def phoneRegex : RE :=
  .seq (.opt (.seq (.opt (RE.chr '+')) (RE.repRange 1 3 (.cls isDigitCh))))
    (.seq (.opt phoneSep)
      (.seq (.opt (.seq (.opt (RE.chr '('))
          (.seq (RE.repExact 3 (.cls isDigitCh)) (.seq (.opt (RE.chr ')')) (.opt phoneSep)))))
        (.seq (RE.repExact 3 (.cls isDigitCh))
          (.seq (.opt phoneSep) (RE.repExact 4 (.cls isDigitCh))))))

/-- Pattern `^\d+\s[A-z]+\s[A-z]+` of `isAddress`, anchored only at the
start, so an arbitrary suffix is allowed. -/
def addressRegex : RE :=
  .seq (.plus (.cls isDigitCh))
    (.seq (.cls isSpaceCh)
      (.seq (.plus (.cls isAtoz))
        (.seq (.cls isSpaceCh) (.seq (.plus (.cls isAtoz)) (.star RE.anyChar)))))

/-- Pattern `^(\d{1,3}\.){3}\d{1,3}$` of `isIpAddr`. -/
def ipAddrRegex : RE :=
  .seq (RE.repExact 3 (.seq (RE.repRange 1 3 (.cls isDigitCh)) (RE.chr '.')))
    (RE.repRange 1 3 (.cls isDigitCh))

/-- Pattern `^([a-zA-Z0-9]+\.){1,}([a-zA-Z]{2,})$` of `isDomain`. -/
def domainRegex : RE :=
  .seq (.plus (.seq (.plus (.cls isAlnumCh)) (RE.chr '.'))) (RE.repAtLeast 2 (.cls isAlphaCh))

/-- Pattern `^https?://[a-zA-Z0-9.-]+\.[a-zA-Z]{2,}$` of `isUrl`. -/
def urlRegex : RE :=
  .seq (RE.str "http")
    (.seq (.opt (RE.chr 's'))
      (.seq (RE.str "://")
        (.seq (.plus (.cls fun c => isAlnumCh c || c == '.' || c == '-'))
          (.seq (RE.chr '.') (RE.repAtLeast 2 (.cls isAlphaCh))))))

/-- Pattern `^@[a-zA-Z0-9_]{1,15}$` of `isTwitterHandle`. -/
def twitterRegex : RE :=
  .seq (RE.chr '@') (RE.repRange 1 15 (.cls fun c => isAlnumCh c || c == '_'))

/-- Pattern `^https?://(www\.)?linkedin\.com/in/[a-zA-Z0-9-_]+/?$` of `isLinkedinProfile`. -/
def linkedinRegex : RE :=
  .seq (RE.str "http")
    (.seq (.opt (RE.chr 's'))
      (.seq (RE.str "://")
        (.seq (.opt (RE.str "www."))
          (.seq (RE.str "linkedin.com/in/")
            (.seq (.plus (.cls fun c => isAlnumCh c || c == '-' || c == '_'))
              (.opt (RE.chr '/')))))))

/-- Pattern `^@[a-zA-Z0-9._]{1,30}$` of `isInstagramHandle`. -/
def instagramRegex : RE :=
  .seq (RE.chr '@') (RE.repRange 1 30 (.cls fun c => isAlnumCh c || c == '.' || c == '_'))

/-- Pattern `^https?://(www\.)?facebook\.com/[a-zA-Z0-9._-]+/?$` of `isFacebookProfile`. -/
def facebookRegex : RE :=
  .seq (RE.str "http")
    (.seq (.opt (RE.chr 's'))
      (.seq (RE.str "://")
        (.seq (.opt (RE.str "www."))
          (.seq (RE.str "facebook.com/")
            (.seq (.plus (.cls fun c => isAlnumCh c || c == '.' || c == '_' || c == '-'))
              (.opt (RE.chr '/')))))))

/-- Pattern `^@[a-zA-Z0-9._]{1,30}$` of `isTikTokHandle`. -/
def tiktokRegex : RE :=
  .seq (RE.chr '@') (RE.repRange 1 30 (.cls fun c => isAlnumCh c || c == '.' || c == '_'))

/-- Pattern `^u/[a-zA-Z0-9-_]{3,20}$` of `isRedditUsername`. -/
def redditRegex : RE :=
  .seq (RE.str "u/") (RE.repRange 3 20 (.cls fun c => isAlnumCh c || c == '-' || c == '_'))

/-- Pattern `^https?://(www\.)?youtube\.com/channel/[a-zA-Z0-9_-]+/?$` of `isYouTubeChannel`. -/
def youtubeRegex : RE :=
  .seq (RE.str "http")
    (.seq (.opt (RE.chr 's'))
      (.seq (RE.str "://")
        (.seq (.opt (RE.str "www."))
          (.seq (RE.str "youtube.com/channel/")
            (.seq (.plus (.cls fun c => isAlnumCh c || c == '_' || c == '-'))
              (.opt (RE.chr '/')))))))

/-- Pattern `^https?://(www\.)?pinterest\.com/[a-zA-Z0-9_]+/?$` of `isPinterestProfile`. -/
def pinterestRegex : RE :=
  .seq (RE.str "http")
    (.seq (.opt (RE.chr 's'))
      (.seq (RE.str "://")
        (.seq (.opt (RE.str "www."))
          (.seq (RE.str "pinterest.com/")
            (.seq (.plus (.cls fun c => isAlnumCh c || c == '_')) (.opt (RE.chr '/')))))))

/-- Pattern `^@[a-zA-Z0-9._-]{1,15}$` of `isSnapchatHandle`. -/
def snapchatRegex : RE :=
  .seq (RE.chr '@')
    (RE.repRange 1 15 (.cls fun c => isAlnumCh c || c == '.' || c == '_' || c == '-'))

/-- Pattern `^[a-zA-Z0-9-]+\.tumblr\.com$` of `isTumblrBlog`. -/
def tumblrRegex : RE :=
  .seq (.plus (.cls fun c => isAlnumCh c || c == '-')) (RE.str ".tumblr.com")

/-- Pattern `^([0-9A-Fa-f]{2}[:-]){5}([0-9A-Fa-f]{2})$` of `isMacAddr`. -/
def macAddrRegex : RE :=
  .seq (RE.repExact 5 (.seq (RE.repExact 2 (.cls isHexCh)) (.cls fun c => c == ':' || c == '-')))
    (RE.repExact 2 (.cls isHexCh))

/-- Pattern `^1[a-km-zA-HJ-NP-Z1-9]{25,34}$` of `isBitcoinAddress`. -/
def bitcoinRegex : RE := .seq (RE.chr '1') (RE.repRange 25 34 (.cls isBase58Ch))

/-- Go `isEmail`. -/
def isEmail (value : String) : Bool := emailRegex.matchString value

/-- Go `isPhone`. -/
def isPhone (value : String) : Bool := phoneRegex.matchString value

/-- Go `isAddress`. -/
def isAddress (value : String) : Bool := addressRegex.matchString value

/-- Go `isIpAddr`. -/
def isIpAddr (value : String) : Bool := ipAddrRegex.matchString value

/-- Go `isDomain`. -/
def isDomain (value : String) : Bool := domainRegex.matchString value

/-- Go `isUrl`. -/
def isUrl (value : String) : Bool := urlRegex.matchString value

/-- Go `isTwitterHandle`. -/
def isTwitterHandle (value : String) : Bool := twitterRegex.matchString value

/-- Go `isLinkedinProfile`. -/
def isLinkedinProfile (value : String) : Bool := linkedinRegex.matchString value

/-- Go `isInstagramHandle`. -/
def isInstagramHandle (value : String) : Bool := instagramRegex.matchString value

/-- Go `isFacebookProfile`. -/
def isFacebookProfile (value : String) : Bool := facebookRegex.matchString value

/-- Go `isTikTokHandle`. -/
def isTikTokHandle (value : String) : Bool := tiktokRegex.matchString value

/-- Go `isRedditUsername`. -/
def isRedditUsername (value : String) : Bool := redditRegex.matchString value

/-- Go `isYouTubeChannel`. -/
def isYouTubeChannel (value : String) : Bool := youtubeRegex.matchString value

/-- Go `isPinterestProfile`. -/
def isPinterestProfile (value : String) : Bool := pinterestRegex.matchString value

/-- Go `isSnapchatHandle`. -/
def isSnapchatHandle (value : String) : Bool := snapchatRegex.matchString value

/-- Go `isTumblrBlog`. -/
def isTumblrBlog (value : String) : Bool := tumblrRegex.matchString value

/-- Go `isMacAddr`. -/
def isMacAddr (value : String) : Bool := macAddrRegex.matchString value

/-- Go `isBitcoinAddress`. -/
def isBitcoinAddress (value : String) : Bool := bitcoinRegex.matchString value

/-- The Go `TraceType` string constants that the classifier can
produce, embedded as an enumeration. -/
inductive TraceType where
  | email
  | phone
  | address
  | ipAddr
  | domain
  | url
  | username
  | twitter
  | linkedin
  | instagram
  | facebook
  | tiktok
  | reddit
  | youtube
  | pinterest
  | snapchat
  | tumblr
  | macAddr
  | bitcoinAddress
deriving DecidableEq, Repr

/-- Go `Trace`: a value string with its classified type. -/
structure Trace where
  Value : String
  Type' : TraceType
deriving DecidableEq, Repr

/-- Go `guessTraceType`: the priority chain of the classifier.  The
default branch returns `username`; there is no failure branch. -/
def guessTraceType (value : String) : TraceType :=
  if isEmail value then .email
  else if isPhone value then .phone
  else if isIpAddr value then .ipAddr
  else if isDomain value then .domain
  else if isUrl value then .url
  else if isAddress value then .address
  else if isTwitterHandle value then .twitter
  else if isLinkedinProfile value then .linkedin
  else if isInstagramHandle value then .instagram
  else if isFacebookProfile value then .facebook
  else if isTikTokHandle value then .tiktok
  else if isRedditUsername value then .reddit
  else if isYouTubeChannel value then .youtube
  else if isPinterestProfile value then .pinterest
  else if isSnapchatHandle value then .snapchat
  else if isTumblrBlog value then .tumblr
  else if isMacAddr value then .macAddr
  else if isBitcoinAddress value then .bitcoinAddress
  else .username

/-- Go `NewTrace`: total constructor, always returns a trace. -/
def NewTrace (value : String) : Trace :=
  { Value := value, Type' := guessTraceType value }

end entities

namespace engine

open entities

/-- State of the `Engine.ProcessInput` loop: the pending stack, the
`seen` map (a set, since only `true` is ever stored) and the
accumulated `allTraces` result list. -/
structure EngineState where
  stack : List Trace
  seen : Finset Trace
  allTraces : List Trace

/-- The result-collection loop of `ProcessInput`: each batch result is
inserted into `seen`, `allTraces` and the stack when not seen yet. -/
def processResults (results : List Trace) (st : EngineState) : EngineState :=
  results.foldl
    (fun st t =>
      if t ∈ st.seen then st
      else { stack := st.stack ++ [t], seen := insert t st.seen, allTraces := st.allTraces ++ [t] })
    st

/-- One iteration of the `ProcessInput` loop.  `processBatch` runs the
processor on every batch trace and concatenates the emitted traces;
its error return is always `nil` in the source, so no error path is
modelled.  `expand` is the processor (`processor.ProcessTrace`). -/
def processStep (expand : Trace → List Trace) (maxConcurrency : Nat) (st : EngineState) :
    EngineState :=
  let batchSize := min st.stack.length maxConcurrency
  let batch := st.stack.take batchSize
  let rest := st.stack.drop batchSize
  let results := batch.flatMap expand
  processResults results { st with stack := rest }

/-- The `for len(stack) > 0` loop of `ProcessInput`, with explicit fuel
(the termination theorem shows a fuel bound after which the stack is
empty and the state is final). -/
def processLoop (expand : Trace → List Trace) (maxConcurrency : Nat) :
    Nat → EngineState → EngineState
  | 0, st => st
  | fuel + 1, st =>
    if st.stack = [] then st
    else processLoop expand maxConcurrency fuel (processStep expand maxConcurrency st)

/-- Go `Engine.ProcessInput`: classify the input, start with the
initial trace on the stack and an empty `seen` map, and run the loop. -/
def ProcessInput (expand : Trace → List Trace) (maxConcurrency fuel : Nat) (input : String) :
    EngineState :=
  processLoop expand maxConcurrency fuel
    { stack := [NewTrace input], seen := ∅, allTraces := [] }

/-- Reachability in zero or more plugin-expansion steps from the seed. -/
inductive Reaches (expand : Trace → List Trace) (seed : Trace) : Trace → Prop
  | refl : Reaches expand seed seed
  | step : ∀ t t', Reaches expand seed t → t' ∈ expand t → Reaches expand seed t'

/-- Reachability in one or more plugin-expansion steps from the seed. -/
def ReachPlus (expand : Trace → List Trace) (seed t : Trace) : Prop :=
  ∃ s, Reaches expand seed s ∧ t ∈ expand s

end engine

namespace workerpool

/-- One second in nanoseconds, the unit of Go `time.Duration`. -/
def secondNs : Int := 1000000000

/-- Go `CircuitBreakerConfig`.  Durations are nanoseconds. -/
structure CircuitBreakerConfig where
  FailureThreshold : Int
  RecoveryTimeout : Int
  HalfOpenMaxCalls : Int
  WindowSize : Int
deriving DecidableEq, Repr

/-- Go `CircuitBreakerState`. -/
inductive CBState where
  | closed
  | open
  | halfOpen
deriving DecidableEq, Repr

/-- Go `CircuitBreaker`.  Wall-clock reads (`time.Now`, `time.Since`)
become an explicit `now` argument of the methods; the Go zero value of
`time.Time` is modelled as instant 0. -/
structure CircuitBreaker where
  config : CircuitBreakerConfig
  state : CBState
  failureCount : Int
  lastFailureTime : Int
  halfOpenCalls : Int
  successCount : Int
  lastSuccessTime : Int
deriving DecidableEq, Repr

/-- Go `NewCircuitBreaker`: replace non-positive configuration fields
by defaults, start closed with zeroed counters. -/
def NewCircuitBreaker (config : CircuitBreakerConfig) : CircuitBreaker :=
  let c1 := if config.FailureThreshold ≤ 0 then { config with FailureThreshold := 5 } else config
  let c2 := if c1.RecoveryTimeout ≤ 0 then { c1 with RecoveryTimeout := 60 * secondNs } else c1
  let c3 := if c2.HalfOpenMaxCalls ≤ 0 then { c2 with HalfOpenMaxCalls := 3 } else c2
  let c4 := if c3.WindowSize ≤ 0 then { c3 with WindowSize := 60 * secondNs } else c3
  { config := c4, state := .closed, failureCount := 0, lastFailureTime := 0,
    halfOpenCalls := 0, successCount := 0, lastSuccessTime := 0 }

/-- Go `CircuitBreaker.shouldOpen`. -/
def CircuitBreaker.shouldOpen (cb : CircuitBreaker) (now : Int) : Bool :=
  decide (cb.config.FailureThreshold ≤ cb.failureCount) &&
    decide (now - cb.lastFailureTime ≤ cb.config.WindowSize)

/-- Go `CircuitBreaker.shouldRemainHalfOpen`. -/
def CircuitBreaker.shouldRemainHalfOpen (cb : CircuitBreaker) : Bool :=
  decide (cb.halfOpenCalls < cb.config.HalfOpenMaxCalls)

/-- Go `CircuitBreaker.IsOpen`. -/
def CircuitBreaker.IsOpen (cb : CircuitBreaker) (now : Int) : Bool :=
  match cb.state with
  | .open => true
  | .halfOpen => cb.shouldRemainHalfOpen
  | .closed => cb.shouldOpen now

/-- Go `CircuitBreaker.recordSuccess`. -/
def CircuitBreaker.recordSuccess (cb : CircuitBreaker) (now : Int) : CircuitBreaker :=
  let base := { cb with lastSuccessTime := now, successCount := cb.successCount + 1,
                        failureCount := 0 }
  if cb.state = .halfOpen then { base with state := .closed, halfOpenCalls := 0 } else base

/-- Go `CircuitBreaker.recordFailure`. -/
def CircuitBreaker.recordFailure (cb : CircuitBreaker) (now : Int) : CircuitBreaker :=
  let cb1 := { cb with lastFailureTime := now, failureCount := cb.failureCount + 1 }
  if cb1.shouldOpen now then { cb1 with state := .open } else cb1

/-- Go `CircuitBreaker.RecordResult`. -/
def CircuitBreaker.RecordResult (cb : CircuitBreaker) (now : Int) (success : Bool) :
    CircuitBreaker :=
  if success then cb.recordSuccess now else cb.recordFailure now

/-- Go `CircuitBreaker.tryHalfOpen`: the returned flag says whether the
transition to half-open happened (the compare-and-swap always succeeds
in the sequential model). -/
def CircuitBreaker.tryHalfOpen (cb : CircuitBreaker) (now : Int) : Bool × CircuitBreaker :=
  if cb.state ≠ .open then (false, cb)
  else if now - cb.lastFailureTime < cb.config.RecoveryTimeout then (false, cb)
  else (true, { cb with state := .halfOpen, halfOpenCalls := 0 })

/-- Tail of Go `CircuitBreaker.Execute` after admission: bump the
half-open counter when half-open, invoke the function and record its
result.  `fnSucceeds` is the outcome of the invoked function. -/
def executeRun (cb : CircuitBreaker) (now : Int) (fnSucceeds : Bool) : Bool × CircuitBreaker :=
  let cb2 :=
    if cb.state = .halfOpen then { cb with halfOpenCalls := cb.halfOpenCalls + 1 } else cb
  (true, cb2.RecordResult now fnSucceeds)

/-- Go `CircuitBreaker.Execute`.  The first component is true exactly
when the protected function was invoked; `false` means the call was
rejected with `ErrCircuitBreakerOpen`. -/
def CircuitBreaker.Execute (cb : CircuitBreaker) (now : Int) (fnSucceeds : Bool) :
    Bool × CircuitBreaker :=
  if cb.IsOpen now then
    let r := cb.tryHalfOpen now
    if r.1 = false then (false, r.2)
    else executeRun r.2 now fnSucceeds
  else executeRun cb now fnSucceeds

/-- Fold `recordFailure` over a list of failure instants. -/
def applyCBFailures (cb : CircuitBreaker) (ts : List Int) : CircuitBreaker :=
  ts.foldl (fun cb t => cb.recordFailure t) cb

end workerpool

namespace sha256

/-- Reduce modulo 2^32, the word size of SHA-256. -/
def w32 (x : Nat) : Nat := x % 4294967296

/-- Rotate a 32-bit word right by `n`. -/
def rotr32 (n x : Nat) : Nat := w32 ((x >>> n) ||| (x <<< (32 - n)))

/-- Bitwise complement of a 32-bit word. -/
def not32 (x : Nat) : Nat := 4294967295 - x

/-- SHA-256 choice function. -/
def chF (x y z : Nat) : Nat := (x &&& y) ^^^ (not32 x &&& z)

/-- SHA-256 majority function. -/
def majF (x y z : Nat) : Nat := (x &&& y) ^^^ (x &&& z) ^^^ (y &&& z)

/-- SHA-256 big sigma 0. -/
def bigSigma0 (x : Nat) : Nat := rotr32 2 x ^^^ rotr32 13 x ^^^ rotr32 22 x

/-- SHA-256 big sigma 1. -/
def bigSigma1 (x : Nat) : Nat := rotr32 6 x ^^^ rotr32 11 x ^^^ rotr32 25 x

/-- SHA-256 small sigma 0. -/
def smallSigma0 (x : Nat) : Nat := rotr32 7 x ^^^ rotr32 18 x ^^^ (x >>> 3)

/-- SHA-256 small sigma 1. -/
def smallSigma1 (x : Nat) : Nat := rotr32 17 x ^^^ rotr32 19 x ^^^ (x >>> 10)

/-- The SHA-256 round constants. -/
def roundK : List Nat :=
  [1116352408, 1899447441, 3049323471, 3921009573, 961987163, 1508970993, 2453635748, 2870763221,
    3624381080, 310598401, 607225278, 1426881987, 1925078388, 2162078206, 2614888103, 3248222580,
    3835390401, 4022224774, 264347078, 604807628, 770255983, 1249150122, 1555081692, 1996064986,
    2554220882, 2821834349, 2952996808, 3210313671, 3336571891, 3584528711, 113926993, 338241895,
    666307205, 773529912, 1294757372, 1396182291, 1695183700, 1986661051, 2177026350, 2456956037,
    2730485921, 2820302411, 3259730800, 3345764771, 3516065817, 3600352804, 4094571909, 275423344,
    430227734, 506948616, 659060556, 883997877, 958139571, 1322822218, 1537002063, 1747873779,
    1955562222, 2024104815, 2227730452, 2361852424, 2428436474, 2756734187, 3204031479,
    3329325298]

/-- The SHA-256 initial hash value. -/
def initH : List Nat :=
  [1779033703, 3144134277, 1013904242, 2773480762, 1359893119, 2600822924, 528734635, 1541459225]

/-- Big-endian byte decomposition of a number into `k` bytes. -/
def beBytes : Nat → Nat → List Nat
  | 0, _ => []
  | k + 1, x => beBytes k (x / 256) ++ [x % 256]

/-- SHA-256 padding: append `0x80`, zeros, and the 64-bit big-endian
message bit length, up to a multiple of 64 bytes. -/
def padMessage (msg : List Nat) : List Nat :=
  let L := msg.length
  let k := (119 - L % 64) % 64
  msg ++ [128] ++ List.replicate k 0 ++ beBytes 8 (8 * L)

/-- Combine a byte list into big-endian 32-bit words. -/
def wordsOf : List Nat → List Nat
  | b1 :: b2 :: b3 :: b4 :: rest => (((b1 * 256 + b2) * 256 + b3) * 256 + b4) :: wordsOf rest
  | _ => []

/-- Extend the 16-word message schedule by `steps` further words. -/
def extendSchedule (w : List Nat) : Nat → List Nat
  | 0 => w
  | s + 1 =>
    let n := w.length
    extendSchedule
      (w ++ [w32 (smallSigma1 (w.getD (n - 2) 0) + w.getD (n - 7) 0 +
        smallSigma0 (w.getD (n - 15) 0) + w.getD (n - 16) 0)]) s

/-- One SHA-256 compression round; the state is the eight working
variables in order, the pair is the scheduled word and round constant. -/
def compressStep (st : List Nat) (wk : Nat × Nat) : List Nat :=
  let a := st.getD 0 0
  let b := st.getD 1 0
  let c := st.getD 2 0
  let d := st.getD 3 0
  let e := st.getD 4 0
  let f := st.getD 5 0
  let g := st.getD 6 0
  let h := st.getD 7 0
  let t1 := w32 (h + bigSigma1 e + chF e f g + wk.2 + wk.1)
  let t2 := w32 (bigSigma0 a + majF a b c)
  [w32 (t1 + t2), a, b, c, w32 (d + t1), e, f, g]

/-- Compress one 64-byte block into the running hash value. -/
def processBlock (h : List Nat) (block : List Nat) : List Nat :=
  let w := extendSchedule (wordsOf block) 48
  let st := (w.zip roundK).foldl compressStep h
  (h.zip st).map (fun p => w32 (p.1 + p.2))

/-- Process a padded message block by block; the padded length is a
multiple of 64, so the block count drives the recursion. -/
def processBlocksN (h : List Nat) (bytes : List Nat) : Nat → List Nat
  | 0 => h
  | n + 1 => processBlocksN (processBlock h (bytes.take 64)) (bytes.drop 64) n

/-- The SHA-256 digest (32 bytes) of a byte message, as in Go
`crypto/sha256.Sum256`. -/
def sha256Bytes (msg : List Nat) : List Nat :=
  let padded := padMessage msg
  (processBlocksN initH padded (padded.length / 64)).flatMap (beBytes 4)

/-- UTF-8 encoding of one code point. -/
def utf8EncodeChar (n : Nat) : List Nat :=
  if n < 128 then [n]
  else if n < 2048 then [192 + n / 64, 128 + n % 64]
  else if n < 65536 then [224 + n / 4096, 128 + (n / 64) % 64, 128 + n % 64]
  else [240 + n / 262144, 128 + (n / 4096) % 64, 128 + (n / 64) % 64, 128 + n % 64]

/-- The bytes of a Go string (UTF-8). -/
def strBytes (s : String) : List Nat :=
  s.data.foldr (fun c acc => utf8EncodeChar c.toNat ++ acc) []

/-- Lower-case hexadecimal digit. -/
def hexDigit (n : Nat) : Char := if n < 10 then Char.ofNat (48 + n) else Char.ofNat (87 + n)

/-- Go `hex.EncodeToString`. -/
def hexEncode (bs : List Nat) : String := ⟨bs.flatMap (fun b => [hexDigit (b / 16), hexDigit (b % 16)])⟩

end sha256

namespace workerpool

/-- Go `Task`.  The `Payload` field has Go type `interface` and always
holds a string in the modelled flows; `fmt.Sprintf` with verb `v` on it
is then the string itself.  `Created` is a nanosecond instant. -/
structure Task where
  ID : String
  Payload : String
  Priority : Int
  Created : Int
deriving DecidableEq, Repr

/-- Go `fmt.Sprintf` with verb `v` on a string payload. -/
def fmtV (payload : String) : String := payload

/-- Go `DeduplicationCache.generateTaskID`: the hex encoding of the
first 8 bytes of the SHA-256 digest of the formatted payload.  Only
the payload enters the hash. -/
def generateTaskID (task : Task) : String :=
  sha256.hexEncode ((sha256.sha256Bytes (sha256.strBytes (fmtV task.Payload))).take 8)

/-- Go `LRUCache`: the map and the doubly-linked list are modelled as
one association list whose head is the most recently used entry.  The
atomic metric counters do not influence control flow and are omitted. -/
structure LRUCache where
  maxSize : Int
  entries : List (String × Task)
deriving DecidableEq, Repr

/-- Go `NewLRUCache`. -/
def NewLRUCache (maxSize : Int) : LRUCache := { maxSize := maxSize, entries := [] }

/-- Go `LRUCache.Get`: on a hit the entry moves to the front. -/
def LRUCache.Get (lru : LRUCache) (key : String) : Option Task × LRUCache :=
  match lru.entries.find? (fun e => e.1 == key) with
  | some e => (some e.2, { lru with entries := (e.1, e.2) :: lru.entries.eraseP (fun x => x.1 == key) })
  | none => (none, lru)

/-- Go `LRUCache.Put`: update-and-move-to-front when the key exists
(no eviction in that branch), otherwise push to the front and evict
the back entry when the size exceeds `maxSize`. -/
def LRUCache.Put (lru : LRUCache) (key : String) (value : Task) : LRUCache :=
  if (lru.entries.find? (fun e => e.1 == key)).isSome then
    { lru with entries := (key, value) :: lru.entries.eraseP (fun x => x.1 == key) }
  else
    let entries1 := (key, value) :: lru.entries
    if lru.maxSize < (entries1.length : Int) then { lru with entries := entries1.dropLast }
    else { lru with entries := entries1 }

/-- Key residency in the LRU cache. -/
def LRUCache.containsKey (lru : LRUCache) (key : String) : Bool :=
  lru.entries.any (fun e => e.1 == key)

/-- Go `DeduplicationConfig`.  Durations are nanoseconds. -/
structure DeduplicationConfig where
  EnableCache : Bool
  CacheTTL : Int
  MaxMemorySize : Int
  EnableMetrics : Bool
  CleanupInterval : Int
  PersistentCache : Bool
deriving DecidableEq, Repr

/-- Go `DeduplicationCache`.  `hasDbCache` models whether the `dbCache`
pointer is non-nil; the database itself is external, so the outcome of
a persistent lookup is passed in as an argument where needed. -/
structure DeduplicationCache where
  config : DeduplicationConfig
  memoryCache : LRUCache
  hasDbCache : Bool
deriving DecidableEq, Repr

/-- Final part of Go `DeduplicationCache.IsDuplicate`: insert into the
memory cache when enabled and report a non-duplicate. -/
def dedupInsert (dc : DeduplicationCache) (task : Task) (taskID : String) :
    Bool × DeduplicationCache :=
  (false,
    if dc.config.EnableCache then
      { dc with memoryCache := dc.memoryCache.Put taskID task }
    else dc)

/-- Middle part of Go `DeduplicationCache.IsDuplicate`: the persistent
cache branch.  `persistentHit` is the outcome of the external database
lookup (`none` models a lookup error, which the source logs and then
falls through to the memory-only path). -/
def dedupAfterMemCheck (dc : DeduplicationCache) (task : Task) (taskID : String)
    (persistentHit : Option Bool) : Bool × DeduplicationCache :=
  if dc.config.PersistentCache && dc.hasDbCache then
    match persistentHit with
    | some true => (true, { dc with memoryCache := dc.memoryCache.Put taskID task })
    | some false => dedupInsert dc task taskID
    | none => dedupInsert dc task taskID
  else dedupInsert dc task taskID

/-- Go `DeduplicationCache.IsDuplicate` (its error return is always
nil).  The memory cache is consulted first when enabled; a miss falls
through to the persistent branch and then inserts. -/
def DeduplicationCache.IsDuplicate (dc : DeduplicationCache) (task : Task)
    (persistentHit : Option Bool) : Bool × DeduplicationCache :=
  let taskID := generateTaskID task
  if dc.config.EnableCache then
    match dc.memoryCache.Get taskID with
    | (some _, mc') => (true, { dc with memoryCache := mc' })
    | (none, mc') => dedupAfterMemCheck { dc with memoryCache := mc' } task taskID persistentHit
  else dedupAfterMemCheck dc task taskID persistentHit

end workerpool

namespace workerpool

/-- Pattern `^([a-zA-Z0-9]([a-zA-Z0-9-]{0,61}[a-zA-Z0-9])?\.)+[a-zA-Z]{2,}$`
shared by `extractDomainOnly` and `ValidateDomain`. -/
def domainOnlyRegex : RE :=
  .seq
    (.plus (.seq (.cls isAlnumCh)
      (.seq (.opt (.seq (RE.repUpTo 61 (.cls fun c => isAlnumCh c || c == '-')) (.cls isAlnumCh)))
        (RE.chr '.'))))
    (RE.repAtLeast 2 (.cls isAlphaCh))

/-- Pattern `^[a-zA-Z0-9._%+-]+@([a-zA-Z0-9.-]+\.[a-zA-Z]{2,})$` of the
`DomainExtractor` email regex (same shape as the classifier email
pattern, with the part after the `@` captured). -/
def wpEmailRegex : RE :=
  .seq (.plus (.cls fun c => isAlnumCh c || c == '.' || c == '_' || c == '%' || c == '+' || c == '-'))
    (.seq (RE.chr '@')
      (.seq (.plus (.cls fun c => isAlnumCh c || c == '.' || c == '-'))
        (.seq (RE.chr '.') (RE.repAtLeast 2 (.cls isAlphaCh)))))

/-- ASCII lowercase, the effect of Go `strings.ToLower` on the ASCII
domain strings in scope. -/
def toLowerAscii (s : String) : String :=
  ⟨s.data.map (fun c => if isUpperAlpha c then Char.ofNat (c.toNat + 32) else c)⟩

/-- The suffix after the first at sign. -/
def afterAt (s : String) : String :=
  match s.data.dropWhile (fun c => c ≠ '@') with
  | [] => ""
  | _ :: rest => ⟨rest⟩

/-- Go `DomainExtractor.extractEmailDomain`: when the email pattern
matches, the capture group is everything after the (then unique) at
sign, lowercased; otherwise the empty string. -/
def extractEmailDomain (input : String) : String :=
  if wpEmailRegex.matchString input then toLowerAscii (afterAt input) else ""

/-- Host characters of the `DomainExtractor` URL pattern, class `[a-zA-Z0-9.-]`. -/
def isHostCh (c : Char) : Bool := isAlnumCh c || c == '.' || c == '-'

/-- Capture of the URL pattern
`^https?://([a-zA-Z0-9.-]+(?:\.[a-zA-Z]{2,})?(?::[0-9]+)?)` after the
scheme: the maximal host run, plus a colon-digits port when present.
The inner optional group is absorbed by the greedy host run. -/
def urlHostCapture (rest : List Char) : String :=
  let host := rest.takeWhile isHostCh
  if host = [] then ""
  else
    match rest.drop host.length with
    | ':' :: ds =>
      let digits := ds.takeWhile isDigitCh
      if digits = [] then ⟨host⟩ else ⟨host ++ ':' :: digits⟩
    | _ => ⟨host⟩

/-- Go `DomainExtractor.extractURLDomain`. -/
def extractURLDomain (input : String) : String :=
  if input.startsWith "https://" then toLowerAscii (urlHostCapture (input.data.drop 8))
  else if input.startsWith "http://" then toLowerAscii (urlHostCapture (input.data.drop 7))
  else ""

/-- Go `DomainExtractor.extractDomainOnly`. -/
def extractDomainOnly (input : String) : String :=
  if domainOnlyRegex.matchString input then toLowerAscii input else ""

/-- Go `DomainExtractor.ExtractDomain` (the nil-pointer branches are Go
artefacts with no counterpart for a value-typed task). -/
def ExtractDomain (task : Task) : String :=
  let payloadStr := fmtV task.Payload
  if extractEmailDomain payloadStr ≠ "" then extractEmailDomain payloadStr
  else if extractURLDomain payloadStr ≠ "" then extractURLDomain payloadStr
  else if extractDomainOnly payloadStr ≠ "" then extractDomainOnly payloadStr
  else "default"

/-- Go `DomainExtractor.ValidateDomain`. -/
def ValidateDomain (domain : String) : Bool :=
  if domain = "" || domain = "default" then true
  else domainOnlyRegex.matchString domain

/-- Go `DomainRateConfig`.  `RateLimit` is a float in the source and
only feeds the external token-bucket library; durations are
nanoseconds. -/
structure DomainRateConfig where
  Domain : String
  RateLimit : Rat
  Burst : Int
  BackoffBase : Int
  BackoffMax : Int
  MaxRetries : Int
deriving DecidableEq, Repr

/-- Go `BackoffTracker` (its mutex guards concurrent access and has no
sequential content). -/
structure BackoffTracker where
  LastFailure : Int
  CurrentBackoff : Int
  FailureCount : Int
deriving DecidableEq, Repr

/-- The Go zero value of `BackoffTracker`. -/
def emptyTracker : BackoffTracker := { LastFailure := 0, CurrentBackoff := 0, FailureCount := 0 }

/-- Go `BackoffTracker.recordFailure`. -/
def BackoffTracker.recordFailure (bt : BackoffTracker) (config : DomainRateConfig) (now : Int) :
    BackoffTracker :=
  let fc := bt.FailureCount + 1
  let backoff := config.BackoffBase * fc
  let backoff1 := if config.BackoffMax < backoff then config.BackoffMax else backoff
  { LastFailure := now, CurrentBackoff := backoff1, FailureCount := fc }

/-- Go `BackoffTracker.recordSuccess`. -/
def BackoffTracker.recordSuccess (bt : BackoffTracker) : BackoffTracker :=
  { bt with FailureCount := 0, CurrentBackoff := 0 }

/-- Go `BackoffTracker.isInBackoff`. -/
def BackoffTracker.isInBackoff (bt : BackoffTracker) (now : Int) : Bool :=
  if bt.FailureCount = 0 then false
  else decide (now - bt.LastFailure < bt.CurrentBackoff)

/-- Go `BackoffTracker.getCurrentBackoff`. -/
def BackoffTracker.getCurrentBackoff (bt : BackoffTracker) : Int := bt.CurrentBackoff

/-- Go `BackoffTracker.getFailureCount`. -/
def BackoffTracker.getFailureCount (bt : BackoffTracker) : Int := bt.FailureCount

/-- Fold `recordFailure` over a list of failure instants. -/
def applyBTFailures (config : DomainRateConfig) (bt : BackoffTracker) (ts : List Int) :
    BackoffTracker :=
  ts.foldl (fun bt t => bt.recordFailure config t) bt

/-- Outcome of `DomainRateLimiter.Wait`: success, context cancellation
during the backoff sleep, or the rate-limited error path. -/
inductive WaitOutcome where
  | success
  | cancelled
  | rateLimitExceeded
deriving DecidableEq, Repr

/-- Result of `DomainRateLimiter.Wait`: the outcome, the duration the
backoff timer was set for when the sleep ran to completion (0 when no
backoff sleep happened), whether a rate-limiter token was consumed,
and the updated tracker. -/
structure WaitRes where
  outcome : WaitOutcome
  backoffSlept : Int
  tokenConsumed : Bool
  tracker : BackoffTracker
deriving DecidableEq, Repr

/-- Does a context with the given cancellation instant cancel strictly
before instant `t`. -/
def cancelledBefore : Option Int → Int → Bool
  | none, _ => false
  | some c, t => decide (c < t)

/-- Core of Go `DomainRateLimiter.Wait` for one domain: when the
tracker is in backoff, sleep for the value of `getCurrentBackoff` (the
select on `time.After` and `ctx.Done`), then ask the token bucket.
`limiterGrantsToken` is the outcome of the external
`rate.Limiter.Wait` call (false also covers cancellation while waiting
for a token, which the source folds into the rate-limited error). -/
def waitWithBackoff (config : DomainRateConfig) (bt : BackoffTracker) (now : Int)
    (cancelAt : Option Int) (limiterGrantsToken : Bool) : WaitRes :=
  if bt.isInBackoff now && cancelledBefore cancelAt (now + bt.getCurrentBackoff) then
    { outcome := .cancelled, backoffSlept := 0, tokenConsumed := false, tracker := bt }
  else
    let d := if bt.isInBackoff now then bt.getCurrentBackoff else 0
    if limiterGrantsToken then
      { outcome := .success, backoffSlept := d, tokenConsumed := true,
        tracker := bt.recordSuccess }
    else
      { outcome := .rateLimitExceeded, backoffSlept := d, tokenConsumed := false,
        tracker := bt.recordFailure config (now + d) }

/-- Go `DomainRateLimiter`: the per-domain config and tracker maps as
association lists.  The `rate.Limiter` objects live in the external
library; their grant decisions are passed in where needed. -/
structure DomainRateLimiter where
  configs : List (String × DomainRateConfig)
  backoffTrackers : List (String × BackoffTracker)
  defaultConfig : DomainRateConfig
deriving DecidableEq, Repr

/-- Association-list lookup. -/
def lookupStr (l : List (String × α)) (k : String) : Option α :=
  (l.find? (fun e => e.1 == k)).map (fun e => e.2)

/-- Association-list update or insert. -/
def updateStr (l : List (String × α)) (k : String) (v : α) : List (String × α) :=
  if (l.find? (fun e => e.1 == k)).isSome then
    l.map (fun e => if e.1 == k then (k, v) else e)
  else l ++ [(k, v)]

/-- The default configuration `NewDomainRateLimiter` installs when
called with nil. -/
def builtinDefaultConfig : DomainRateConfig :=
  { Domain := "default", RateLimit := 10, Burst := 5, BackoffBase := 1 * secondNs,
    BackoffMax := 60 * secondNs, MaxRetries := 3 }

/-- Go `NewDomainRateLimiter`. -/
def NewDomainRateLimiter (defaultConfig : Option DomainRateConfig) : DomainRateLimiter :=
  { configs := [], backoffTrackers := [],
    defaultConfig := defaultConfig.getD builtinDefaultConfig }

/-- Go `DomainRateLimiter.GetDomainConfig`. -/
def DomainRateLimiter.GetDomainConfig (drl : DomainRateLimiter) (domain : String) :
    DomainRateConfig :=
  (lookupStr drl.configs domain).getD drl.defaultConfig

/-- Go `DomainRateLimiter.getBackoffTracker`: get or create. -/
def DomainRateLimiter.getBackoffTracker (drl : DomainRateLimiter) (domain : String) :
    BackoffTracker × DomainRateLimiter :=
  match lookupStr drl.backoffTrackers domain with
  | some bt => (bt, drl)
  | none =>
    (emptyTracker,
      { drl with backoffTrackers := drl.backoffTrackers ++ [(domain, emptyTracker)] })

/-- Go `DomainRateLimiter.Wait`: resolve config and tracker for the
domain, run the backoff-then-token sequence, write the tracker back. -/
def DomainRateLimiter.Wait (drl : DomainRateLimiter) (domain : String) (now : Int)
    (cancelAt : Option Int) (limiterGrantsToken : Bool) : WaitRes × DomainRateLimiter :=
  let config := drl.GetDomainConfig domain
  let p := drl.getBackoffTracker domain
  let res := waitWithBackoff config p.1 now cancelAt limiterGrantsToken
  (res, { p.2 with backoffTrackers := updateStr p.2.backoffTrackers domain res.tracker })

/-- Go `DomainRateLimiter.ExtractDomainAndWait`. -/
def DomainRateLimiter.ExtractDomainAndWait (drl : DomainRateLimiter) (task : Task) (now : Int)
    (cancelAt : Option Int) (limiterGrantsToken : Bool) :
    String × WaitRes × DomainRateLimiter :=
  let domain := ExtractDomain task
  let p := drl.Wait domain now cancelAt limiterGrantsToken
  (domain, p.1, p.2)

end workerpool

namespace workerpool

/-- Go worker-pool `Config`. -/
structure Config where
  MaxWorkers : Int
  QueueSize : Int
  DefaultRateLimit : Rat
  DefaultBurst : Int
  CircuitBreakerConfig : CircuitBreakerConfig
  TaskTimeout : Int
  EnableDeduplication : Bool
  EnableMetrics : Bool
  DeduplicationConfig : DeduplicationConfig
deriving DecidableEq, Repr

/-- Go `WorkerPool`, restricted to the state that `Submit` reads and
writes: the buffered task queue (a list bounded by its capacity), the
dedup cache, the breaker table and the domain rate limiter.  Workers,
result queue and metric counters are omitted; they do not influence
`Submit`'s control flow. -/
structure WorkerPool where
  config : Config
  queueCap : Int
  taskQueue : List Task
  deduplicationCache : Option DeduplicationCache
  circuitBreakers : List (String × CircuitBreaker)
  domainRateLimiter : DomainRateLimiter
deriving DecidableEq, Repr

/-- Go `WorkerPool.getCircuitBreaker`: get or create with the pool
configuration. -/
def WorkerPool.getCircuitBreaker (wp : WorkerPool) (key : String) :
    CircuitBreaker × WorkerPool :=
  match lookupStr wp.circuitBreakers key with
  | some cb => (cb, wp)
  | none =>
    let cb := NewCircuitBreaker wp.config.CircuitBreakerConfig
    (cb, { wp with circuitBreakers := wp.circuitBreakers ++ [(key, cb)] })

/-- Outcome of Go `WorkerPool.Submit`.  `deduplicated` is the nil
return on a duplicate; `queueFull` is the error of the select default
branch; `ctxDone` is the context-cancellation return at the queue. -/
inductive SubmitOutcome where
  | enqueued
  | deduplicated
  | breakerOpen
  | rateLimited
  | ctxDone
  | queueFull
deriving DecidableEq, Repr

/-- Final step of Go `WorkerPool.Submit`: the select over the queue
send, the context and the default branch.  A ready queue wins; with a
full queue the default branch fires unless the context is already
cancelled. -/
def submitToQueue (wp : WorkerPool) (task : Task) (now : Int) (cancelAt : Option Int) :
    SubmitOutcome × WorkerPool :=
  if (wp.taskQueue.length : Int) < wp.queueCap then
    (.enqueued, { wp with taskQueue := wp.taskQueue ++ [task] })
  else if cancelledBefore cancelAt (now + 1) then (.ctxDone, wp)
  else (.queueFull, wp)

/-- Go `WorkerPool.Submit` (the nil-task branch is a Go pointer
artefact).  `limiterGrantsToken` is the decision of the external token
bucket; `persistentHit` is the external database lookup outcome for
the dedup cache. -/
def WorkerPool.Submit (wp : WorkerPool) (task : Task) (now : Int) (cancelAt : Option Int)
    (limiterGrantsToken : Bool) (persistentHit : Option Bool) : SubmitOutcome × WorkerPool :=
  let task1 := if task.ID = "" then { task with ID := fmtV task.Payload } else task
  let afterDedup : Option (Bool × WorkerPool) :=
    if wp.config.EnableDeduplication then
      match wp.deduplicationCache with
      | some dc =>
        let p := dc.IsDuplicate task1 persistentHit
        some (p.1, { wp with deduplicationCache := some p.2 })
      | none => none
    else none
  match afterDedup with
  | some (true, wp1) => (.deduplicated, wp1)
  | other =>
    let wp1 := match other with
      | some (_, wp1) => wp1
      | none => wp
    let pcb := wp1.getCircuitBreaker task1.ID
    if (pcb.1).IsOpen now then (.breakerOpen, pcb.2)
    else
      let wp2 := pcb.2
      let pw := wp2.domainRateLimiter.ExtractDomainAndWait task1 now cancelAt limiterGrantsToken
      let wp3 := { wp2 with domainRateLimiter := pw.2.2 }
      if pw.2.1.outcome ≠ .success then (.rateLimited, wp3)
      else
        let task2 := { task1 with Created := now }
        submitToQueue wp3 task2 now cancelAt

end workerpool

namespace workerpool

lemma newCircuitBreaker_config (cfg : CircuitBreakerConfig) :
    (NewCircuitBreaker cfg).config =
      { FailureThreshold := if cfg.FailureThreshold ≤ 0 then 5 else cfg.FailureThreshold,
        RecoveryTimeout := if cfg.RecoveryTimeout ≤ 0 then 60 * secondNs else cfg.RecoveryTimeout,
        HalfOpenMaxCalls := if cfg.HalfOpenMaxCalls ≤ 0 then 3 else cfg.HalfOpenMaxCalls,
        WindowSize := if cfg.WindowSize ≤ 0 then 60 * secondNs else cfg.WindowSize } := by
  unfold NewCircuitBreaker
  by_cases h1 : cfg.FailureThreshold ≤ 0 <;> by_cases h2 : cfg.RecoveryTimeout ≤ 0 <;>
    by_cases h3 : cfg.HalfOpenMaxCalls ≤ 0 <;> by_cases h4 : cfg.WindowSize ≤ 0 <;>
    simp [h1, h2, h3, h4]

lemma newCircuitBreaker_config_pos (cfg : CircuitBreakerConfig) :
    0 < (NewCircuitBreaker cfg).config.FailureThreshold ∧
    0 < (NewCircuitBreaker cfg).config.RecoveryTimeout ∧
    0 < (NewCircuitBreaker cfg).config.HalfOpenMaxCalls ∧
    0 < (NewCircuitBreaker cfg).config.WindowSize := by
  rw [newCircuitBreaker_config]
  unfold secondNs
  refine ⟨?_, ?_, ?_, ?_⟩ <;> dsimp only <;> split_ifs <;> omega

/-- C10: the circuit-breaker constructor replaces every non-positive
configuration field by its default (5 failures, 60 s recovery, 3
half-open calls, 60 s window), keeps every positive field, and the
resulting breaker always carries strictly positive thresholds and
timeouts. -/
theorem C10_constructor_defaults (cfg : CircuitBreakerConfig) :
    (NewCircuitBreaker cfg).config.FailureThreshold
        = (if cfg.FailureThreshold ≤ 0 then 5 else cfg.FailureThreshold) ∧
    (NewCircuitBreaker cfg).config.RecoveryTimeout
        = (if cfg.RecoveryTimeout ≤ 0 then 60 * secondNs else cfg.RecoveryTimeout) ∧
    (NewCircuitBreaker cfg).config.HalfOpenMaxCalls
        = (if cfg.HalfOpenMaxCalls ≤ 0 then 3 else cfg.HalfOpenMaxCalls) ∧
    (NewCircuitBreaker cfg).config.WindowSize
        = (if cfg.WindowSize ≤ 0 then 60 * secondNs else cfg.WindowSize) ∧
    0 < (NewCircuitBreaker cfg).config.FailureThreshold ∧
    0 < (NewCircuitBreaker cfg).config.RecoveryTimeout ∧
    0 < (NewCircuitBreaker cfg).config.HalfOpenMaxCalls ∧
    0 < (NewCircuitBreaker cfg).config.WindowSize := by
  have hpos := newCircuitBreaker_config_pos cfg
  have hcfg := newCircuitBreaker_config cfg
  refine ⟨?_, ?_, ?_, ?_, hpos.1, hpos.2.1, hpos.2.2.1, hpos.2.2.2⟩ <;> rw [hcfg]

lemma recordFailure_config (cb : CircuitBreaker) (t : Int) :
    (cb.recordFailure t).config = cb.config := by
  simp only [CircuitBreaker.recordFailure]
  split <;> rfl

lemma recordFailure_count (cb : CircuitBreaker) (t : Int) :
    (cb.recordFailure t).failureCount = cb.failureCount + 1 := by
  simp only [CircuitBreaker.recordFailure]
  split <;> rfl

lemma recordFailure_open (cb : CircuitBreaker) (t : Int)
    (hth : cb.config.FailureThreshold ≤ cb.failureCount + 1)
    (hw : 0 ≤ cb.config.WindowSize) :
    (cb.recordFailure t).state = .open := by
  simp only [CircuitBreaker.recordFailure, CircuitBreaker.shouldOpen]
  rw [if_pos (by simp only [Bool.and_eq_true, decide_eq_true_eq, sub_self]; exact ⟨hth, hw⟩)]

lemma applyCBFailures_config (cb : CircuitBreaker) (ts : List Int) :
    (applyCBFailures cb ts).config = cb.config := by
  induction ts generalizing cb with
  | nil => rfl
  | cons t ts ih =>
    unfold applyCBFailures at ih ⊢
    simp only [List.foldl_cons]
    rw [ih, recordFailure_config]

lemma applyCBFailures_count (cb : CircuitBreaker) (ts : List Int) :
    (applyCBFailures cb ts).failureCount = cb.failureCount + ts.length := by
  induction ts generalizing cb with
  | nil => simp [applyCBFailures]
  | cons t ts ih =>
    unfold applyCBFailures at ih ⊢
    simp only [List.foldl_cons, List.length_cons]
    rw [ih, recordFailure_count]
    push_cast
    omega

lemma applyCBFailures_opens (cb : CircuitBreaker) (ts : List Int) (hne : ts ≠ [])
    (hth : cb.config.FailureThreshold ≤ cb.failureCount + ts.length)
    (hw : 0 ≤ cb.config.WindowSize) :
    (applyCBFailures cb ts).state = .open := by
  induction ts generalizing cb with
  | nil => exact absurd rfl hne
  | cons t ts ih =>
    unfold applyCBFailures
    simp only [List.foldl_cons]
    rcases List.eq_nil_or_concat ts with h | _
    · subst h
      simpa [applyCBFailures] using
        recordFailure_open cb t (by simpa using hth) hw
    · have hne2 : ts ≠ [] := by
        rintro rfl
        simp_all
      refine ih (cb.recordFailure t) hne2 ?_ ?_
      · rw [recordFailure_config, recordFailure_count]
        simp only [List.length_cons] at hth
        push_cast at hth ⊢
        omega
      · rw [recordFailure_config]
        exact hw

/-- C4: starting from a fresh breaker, recording `failure_threshold`
failures (at any instants, hence in particular within the window)
drives the breaker to Open; while Open, every `Execute` call strictly
before `last_failure + recovery_timeout` is rejected without invoking
the function and without changing the state; and once
`recovery_timeout` has elapsed since the last failure, the next
`Execute` call is admitted. -/
theorem C4_breaker_liveness :
    (∀ (cfg : CircuitBreakerConfig) (ts : List Int), ts ≠ [] →
      (NewCircuitBreaker cfg).config.FailureThreshold ≤ (ts.length : Int) →
      (applyCBFailures (NewCircuitBreaker cfg) ts).state = .open) ∧
    (∀ (cb : CircuitBreaker) (now : Int) (fnSucceeds : Bool), cb.state = .open →
      now - cb.lastFailureTime < cb.config.RecoveryTimeout →
      cb.Execute now fnSucceeds = (false, cb)) ∧
    (∀ (cb : CircuitBreaker) (now : Int) (fnSucceeds : Bool), cb.state = .open →
      cb.config.RecoveryTimeout ≤ now - cb.lastFailureTime →
      (cb.Execute now fnSucceeds).1 = true) := by
  refine ⟨?_, ?_, ?_⟩
  · intro cfg ts hne hth
    refine applyCBFailures_opens _ ts hne ?_ ?_
    · have h0 : (NewCircuitBreaker cfg).failureCount = 0 := rfl
      rw [h0]
      omega
    · exact le_of_lt (newCircuitBreaker_config_pos cfg).2.2.2
  · intro cb now fn hst hlt
    unfold CircuitBreaker.Execute CircuitBreaker.IsOpen CircuitBreaker.tryHalfOpen
    rw [hst]
    simp [hlt, not_le.mpr hlt]
  · intro cb now fn hst hge
    unfold CircuitBreaker.Execute CircuitBreaker.IsOpen CircuitBreaker.tryHalfOpen
    rw [hst]
    simp [not_lt.mpr hge, executeRun]

/-- C4 witness: a breaker with threshold 2 opens after two failures;
an `Execute` at instant 3 (before recovery at 1 + 5) is rejected; an
`Execute` at instant 6 is admitted. -/
theorem C4_breaker_liveness_witness :
    ([(0 : Int), 1] ≠ [] ∧
      (NewCircuitBreaker ⟨2, 5, 3, 100⟩).config.FailureThreshold ≤ (([(0 : Int), 1].length : Nat) : Int) ∧
      (applyCBFailures (NewCircuitBreaker ⟨2, 5, 3, 100⟩) [0, 1]).state = .open) ∧
    ((applyCBFailures (NewCircuitBreaker ⟨2, 5, 3, 100⟩) [0, 1]).Execute 3 true
        = (false, applyCBFailures (NewCircuitBreaker ⟨2, 5, 3, 100⟩) [0, 1]) ∧
      ((applyCBFailures (NewCircuitBreaker ⟨2, 5, 3, 100⟩) [0, 1]).Execute 6 true).1 = true) := by
  refine ⟨⟨by decide, by decide, ?_⟩, ?_, ?_⟩
  · exact C4_breaker_liveness.1 ⟨2, 5, 3, 100⟩ [0, 1] (by decide) (by decide)
  · exact C4_breaker_liveness.2.1 _ 3 true (by decide) (by decide)
  · exact C4_breaker_liveness.2.2 _ 6 true (by decide) (by decide)

end workerpool

namespace workerpool

/-- Configuration used by the half-open scenario: threshold 2,
recovery 5, half-open cap 3, window 100. -/
def cfgC5 : CircuitBreakerConfig := ⟨2, 5, 3, 100⟩

/-- Breaker state reached by: two failures (opens), a success reported
while open (resets the failure count, state stays open), then one
admitted trial call at instant 6 that fails; the breaker is then
half-open with one recorded half-open call. -/
def cbC5 : CircuitBreaker :=
  (((((NewCircuitBreaker cfgC5).RecordResult 0 false).RecordResult 1 false).RecordResult
      2 true).Execute 6 false).2

/-- C5 counterexample: a breaker in the HalfOpen state with
half-open call count 1, strictly below the cap 3, rejects the next
trial call instead of admitting it. -/
theorem C5_counterexample :
    cbC5.state = .halfOpen ∧ cbC5.halfOpenCalls = 1 ∧
    cbC5.halfOpenCalls < cbC5.config.HalfOpenMaxCalls ∧
    (cbC5.Execute 7 true).1 = false := by decide

/-- C5 amended: the half-open admission logic is inverted with respect
to the claim.  While HalfOpen, `Execute` rejects a trial call (without
invoking the function or changing the state) whenever the recorded
half-open call count is strictly below `half_open_max_calls`, and
admits calls once that count has reached the cap; a trial success
still transitions the breaker to Closed and resets the half-open and
failure counters. -/
theorem C5_halfopen_admission_inverted :
    (∀ (cb : CircuitBreaker) (now : Int) (fnSucceeds : Bool), cb.state = .halfOpen →
      cb.halfOpenCalls < cb.config.HalfOpenMaxCalls → cb.Execute now fnSucceeds = (false, cb)) ∧
    (∀ (cb : CircuitBreaker) (now : Int) (fnSucceeds : Bool), cb.state = .halfOpen →
      cb.config.HalfOpenMaxCalls ≤ cb.halfOpenCalls → (cb.Execute now fnSucceeds).1 = true) ∧
    (∀ (cb : CircuitBreaker) (now : Int), cb.state = .halfOpen →
      cb.config.HalfOpenMaxCalls ≤ cb.halfOpenCalls →
      (cb.Execute now true).2.state = .closed ∧ (cb.Execute now true).2.halfOpenCalls = 0 ∧
        (cb.Execute now true).2.failureCount = 0) := by
  refine ⟨?_, ?_, ?_⟩
  · intro cb now fn hst hlt
    unfold CircuitBreaker.Execute CircuitBreaker.IsOpen CircuitBreaker.shouldRemainHalfOpen
      CircuitBreaker.tryHalfOpen
    rw [hst]
    simp [hlt]
  · intro cb now fn hst hge
    unfold CircuitBreaker.Execute CircuitBreaker.IsOpen CircuitBreaker.shouldRemainHalfOpen
    rw [hst]
    simp [not_lt.mpr hge, executeRun]
  · intro cb now hst hge
    unfold CircuitBreaker.Execute CircuitBreaker.IsOpen CircuitBreaker.shouldRemainHalfOpen
    rw [hst]
    simp [not_lt.mpr hge, executeRun, CircuitBreaker.RecordResult, CircuitBreaker.recordSuccess,
      hst]

/-- A hand-built half-open breaker whose recorded half-open calls have
reached the cap. -/
def cbC5b : CircuitBreaker :=
  { config := cfgC5, state := .halfOpen, failureCount := 1, lastFailureTime := 6,
    halfOpenCalls := 3, successCount := 1, lastSuccessTime := 2 }

/-- C5 witness: the amended theorem applied at the two concrete
half-open breakers. -/
theorem C5_halfopen_witness :
    cbC5.Execute 7 true = (false, cbC5) ∧
    (cbC5b.Execute 7 true).1 = true ∧
    (cbC5b.Execute 7 true).2.state = .closed := by
  refine ⟨?_, ?_, ?_⟩
  · exact C5_halfopen_admission_inverted.1 cbC5 7 true (by decide) (by decide)
  · exact C5_halfopen_admission_inverted.2.1 cbC5b 7 true (by decide) (by decide)
  · exact (C5_halfopen_admission_inverted.2.2 cbC5b 7 (by decide) (by decide)).1

/-- The Go backoff clamp `if backoff greater than max, use max` is the
minimum with the maximum. -/
lemma goMin (b mx : Int) : (if mx < b then mx else b) = min b mx := by
  rcases le_or_lt b mx with h | h
  · rw [if_neg (not_lt.mpr h), min_eq_left h]
  · rw [if_pos h, min_eq_right (le_of_lt h)]

lemma recordFailure_tracker_spec (bt : BackoffTracker) (config : DomainRateConfig) (now : Int) :
    bt.recordFailure config now =
      { LastFailure := now,
        CurrentBackoff := min (config.BackoffBase * (bt.FailureCount + 1)) config.BackoffMax,
        FailureCount := bt.FailureCount + 1 } := by
  simp only [BackoffTracker.recordFailure, goMin]

lemma applyBTFailures_spec (config : DomainRateConfig) (bt : BackoffTracker) (t : Int)
    (ts : List Int) :
    (applyBTFailures config bt (t :: ts)).FailureCount = bt.FailureCount + (ts.length + 1) ∧
    (applyBTFailures config bt (t :: ts)).CurrentBackoff =
      min (config.BackoffBase * (bt.FailureCount + (ts.length + 1))) config.BackoffMax ∧
    (applyBTFailures config bt (t :: ts)).LastFailure = ((t :: ts).getLast?).getD 0 := by
  induction ts generalizing bt t with
  | nil =>
    simp [applyBTFailures, recordFailure_tracker_spec]
  | cons t2 ts ih =>
    have hfold : applyBTFailures config bt (t :: t2 :: ts) =
        applyBTFailures config (bt.recordFailure config t) (t2 :: ts) := by
      simp [applyBTFailures]
    rw [hfold, List.getLast?_cons_cons]
    refine ⟨?_, ?_, (ih (bt.recordFailure config t) t2).2.2⟩
    · rw [(ih (bt.recordFailure config t) t2).1, recordFailure_tracker_spec]
      simp only [List.length_cons]
      push_cast
      ring
    · rw [(ih (bt.recordFailure config t) t2).2.1, recordFailure_tracker_spec]
      simp only [List.length_cons]
      congr 1
      push_cast
      ring

/-- C6: `k` consecutive failures from the initial tracker state leave
the failure count at `k` and the current backoff at
`min(backoff_base * k, backoff_max)`; the domain is in backoff exactly
until `last_failure + current_backoff`; a single `recordSuccess`
resets the failure count and the backoff to 0. -/
theorem C6_backoff_monotonicity (config : DomainRateConfig) (t : Int) (ts : List Int) :
    (applyBTFailures config emptyTracker (t :: ts)).getFailureCount = ((t :: ts).length : Int) ∧
    (applyBTFailures config emptyTracker (t :: ts)).getCurrentBackoff =
      min (config.BackoffBase * ((t :: ts).length : Int)) config.BackoffMax ∧
    (∀ now : Int,
      (applyBTFailures config emptyTracker (t :: ts)).isInBackoff now =
        decide (now < ((t :: ts).getLast?).getD 0 +
          (applyBTFailures config emptyTracker (t :: ts)).getCurrentBackoff)) ∧
    (applyBTFailures config emptyTracker (t :: ts)).recordSuccess.getFailureCount = 0 ∧
    (applyBTFailures config emptyTracker (t :: ts)).recordSuccess.getCurrentBackoff = 0 ∧
    (∀ now : Int,
      (applyBTFailures config emptyTracker (t :: ts)).recordSuccess.isInBackoff now = false) := by
  have hspec := applyBTFailures_spec config emptyTracker t ts
  have hcount : (applyBTFailures config emptyTracker (t :: ts)).FailureCount =
      ((t :: ts).length : Int) := by
    rw [hspec.1]
    simp [emptyTracker]
  refine ⟨hcount, ?_, ?_, ?_, ?_, ?_⟩
  · rw [BackoffTracker.getCurrentBackoff, hspec.2.1]
    simp [emptyTracker]
  · intro now
    unfold BackoffTracker.isInBackoff
    rw [if_neg]
    · rw [BackoffTracker.getCurrentBackoff, hspec.2.2, decide_eq_decide]
      omega
    · rw [hcount]
      simp only [List.length_cons]
      push_cast
      omega
  · simp [BackoffTracker.recordSuccess, BackoffTracker.getFailureCount]
  · simp [BackoffTracker.recordSuccess, BackoffTracker.getCurrentBackoff]
  · intro now
    simp [BackoffTracker.recordSuccess, BackoffTracker.isInBackoff]

end workerpool

namespace workerpool

/-- A tracker one failure deep: last failure at instant 0, current
backoff 10. -/
def btC7 : BackoffTracker := { LastFailure := 0, CurrentBackoff := 10, FailureCount := 1 }

/-- Concrete domain configuration for the Wait scenario. -/
def cfgC7 : DomainRateConfig :=
  { Domain := "example.com", RateLimit := 1, Burst := 1, BackoffBase := 10, BackoffMax := 100,
    MaxRetries := 3 }

/-- C7 counterexample: at instant 7 the domain is in backoff with 3
nanoseconds remaining (`last_failure + current_backoff - now`), yet
`Wait` sets its backoff timer for the full current backoff of 10, not
the remaining 3. -/
theorem C7_counterexample :
    btC7.isInBackoff 7 = true ∧
    (waitWithBackoff cfgC7 btC7 7 none true).backoffSlept = 10 ∧
    btC7.LastFailure + btC7.getCurrentBackoff - 7 = 3 ∧
    (waitWithBackoff cfgC7 btC7 7 none true).backoffSlept ≠
      btC7.LastFailure + btC7.getCurrentBackoff - 7 := by decide

/-- C7 amended: when the domain is in backoff, `Wait` sleeps the full
current backoff duration (not merely the remaining interval) before
consuming a rate-limiter token, and if the sleep is interrupted by
context cancellation it returns the cancellation error without
consuming a token and without touching the tracker. -/
theorem C7_wait_sleeps_full_backoff (config : DomainRateConfig) (bt : BackoffTracker)
    (now : Int) (cancelAt : Option Int) (limiterGrantsToken : Bool)
    (hin : bt.isInBackoff now = true) :
    (cancelledBefore cancelAt (now + bt.getCurrentBackoff) = false →
      (waitWithBackoff config bt now cancelAt limiterGrantsToken).backoffSlept =
        bt.getCurrentBackoff) ∧
    (cancelledBefore cancelAt (now + bt.getCurrentBackoff) = true →
      (waitWithBackoff config bt now cancelAt limiterGrantsToken).outcome = .cancelled ∧
      (waitWithBackoff config bt now cancelAt limiterGrantsToken).tokenConsumed = false ∧
      (waitWithBackoff config bt now cancelAt limiterGrantsToken).tracker = bt) := by
  unfold waitWithBackoff
  constructor
  · intro hnc
    rw [hin, hnc]
    cases limiterGrantsToken <;> simp [hin]
  · intro hc
    rw [hin, hc]
    simp

/-- C7 witness: the amended theorem at the concrete tracker, once
without cancellation (full 10-tick sleep) and once with cancellation
at instant 5 (cancelled, no token, tracker untouched). -/
theorem C7_wait_witness :
    btC7.isInBackoff 7 = true ∧
    (waitWithBackoff cfgC7 btC7 7 none true).backoffSlept = btC7.getCurrentBackoff ∧
    ((waitWithBackoff cfgC7 btC7 7 (some 5) true).outcome = .cancelled ∧
      (waitWithBackoff cfgC7 btC7 7 (some 5) true).tokenConsumed = false ∧
      (waitWithBackoff cfgC7 btC7 7 (some 5) true).tracker = btC7) :=
  ⟨by decide,
    (C7_wait_sleeps_full_backoff cfgC7 btC7 7 none true (by decide)).1 (by decide),
    (C7_wait_sleeps_full_backoff cfgC7 btC7 7 (some 5) true (by decide)).2 (by decide)⟩

/-- A task as built for plugin A on the trace value
`user@example.com`. -/
def taskC3A : Task := { ID := "github-plugin", Payload := "user@example.com", Priority := 0,
                        Created := 0 }

/-- The same trace value paired with a different plugin. -/
def taskC3B : Task := { ID := "whois-plugin", Payload := "user@example.com", Priority := 0,
                        Created := 0 }

/-- C3 counterexample: two distinct tasks that pair the same input
value with different plugins receive the same fingerprint, because
`generateTaskID` hashes only the payload. -/
theorem C3_counterexample :
    taskC3A ≠ taskC3B ∧ generateTaskID taskC3A = generateTaskID taskC3B :=
  ⟨by decide, rfl⟩

/-- C3 amended: the fingerprint is the SHA-256 digest of the formatted
payload alone, truncated to 8 bytes and hex encoded; the task ID (the
plugin identity), priority and creation time do not enter the hash, so
any two tasks with equal payloads share a fingerprint. -/
theorem C3_fingerprint_payload_only (t1 t2 : Task) (h : t1.Payload = t2.Payload) :
    generateTaskID t1 = generateTaskID t2 ∧
    generateTaskID t1 =
      sha256.hexEncode ((sha256.sha256Bytes (sha256.strBytes (fmtV t1.Payload))).take 8) := by
  unfold generateTaskID
  rw [h]
  exact ⟨rfl, rfl⟩

/-- C3 witness: the amended theorem at the two concrete tasks. -/
theorem C3_fingerprint_witness :
    generateTaskID taskC3A = generateTaskID taskC3B ∧
    generateTaskID taskC3A =
      sha256.hexEncode ((sha256.sha256Bytes (sha256.strBytes (fmtV taskC3A.Payload))).take 8) :=
  C3_fingerprint_payload_only taskC3A taskC3B rfl

end workerpool

namespace entities

/-- Disjunction of the full classifier pattern chain, in source
order. -/
def matchesAnyPattern (value : String) : Bool :=
  isEmail value || isPhone value || isIpAddr value || isDomain value || isUrl value ||
    isAddress value || isTwitterHandle value || isLinkedinProfile value ||
    isInstagramHandle value || isFacebookProfile value || isTikTokHandle value ||
    isRedditUsername value || isYouTubeChannel value || isPinterestProfile value ||
    isSnapchatHandle value || isTumblrBlog value || isMacAddr value || isBitcoinAddress value

/-- C9 counterexample: on the empty input the classifier does not fail
with InvalidInput; `NewTrace` is total and returns the username-typed
trace with empty value. -/
theorem C9_counterexample : NewTrace "" = { Value := "", Type' := .username } := by decide

/-- C9 amended: the classifier never fails; for every input string,
including the empty or non-printable ones, `NewTrace` returns a trace
that keeps the input as its value, and the type is `username` exactly
when none of the patterns of the priority chain matches. -/
theorem C9_classifier_total (s : String) :
    (NewTrace s).Value = s ∧
    ((NewTrace s).Type' = .username ↔ matchesAnyPattern s = false) := by
  refine ⟨rfl, ?_⟩
  show guessTraceType s = .username ↔ matchesAnyPattern s = false
  unfold guessTraceType matchesAnyPattern
  by_cases h1 : isEmail s = true
  · rw [if_pos h1, h1]
    simp
  rw [if_neg h1]
  rw [Bool.not_eq_true] at h1
  rw [h1, Bool.false_or]
  by_cases h2 : isPhone s = true
  · rw [if_pos h2, h2]
    simp
  rw [if_neg h2]
  rw [Bool.not_eq_true] at h2
  rw [h2, Bool.false_or]
  by_cases h3 : isIpAddr s = true
  · rw [if_pos h3, h3]
    simp
  rw [if_neg h3]
  rw [Bool.not_eq_true] at h3
  rw [h3, Bool.false_or]
  by_cases h4 : isDomain s = true
  · rw [if_pos h4, h4]
    simp
  rw [if_neg h4]
  rw [Bool.not_eq_true] at h4
  rw [h4, Bool.false_or]
  by_cases h5 : isUrl s = true
  · rw [if_pos h5, h5]
    simp
  rw [if_neg h5]
  rw [Bool.not_eq_true] at h5
  rw [h5, Bool.false_or]
  by_cases h6 : isAddress s = true
  · rw [if_pos h6, h6]
    simp
  rw [if_neg h6]
  rw [Bool.not_eq_true] at h6
  rw [h6, Bool.false_or]
  by_cases h7 : isTwitterHandle s = true
  · rw [if_pos h7, h7]
    simp
  rw [if_neg h7]
  rw [Bool.not_eq_true] at h7
  rw [h7, Bool.false_or]
  by_cases h8 : isLinkedinProfile s = true
  · rw [if_pos h8, h8]
    simp
  rw [if_neg h8]
  rw [Bool.not_eq_true] at h8
  rw [h8, Bool.false_or]
  by_cases h9 : isInstagramHandle s = true
  · rw [if_pos h9, h9]
    simp
  rw [if_neg h9]
  rw [Bool.not_eq_true] at h9
  rw [h9, Bool.false_or]
  by_cases h10 : isFacebookProfile s = true
  · rw [if_pos h10, h10]
    simp
  rw [if_neg h10]
  rw [Bool.not_eq_true] at h10
  rw [h10, Bool.false_or]
  by_cases h11 : isTikTokHandle s = true
  · rw [if_pos h11, h11]
    simp
  rw [if_neg h11]
  rw [Bool.not_eq_true] at h11
  rw [h11, Bool.false_or]
  by_cases h12 : isRedditUsername s = true
  · rw [if_pos h12, h12]
    simp
  rw [if_neg h12]
  rw [Bool.not_eq_true] at h12
  rw [h12, Bool.false_or]
  by_cases h13 : isYouTubeChannel s = true
  · rw [if_pos h13, h13]
    simp
  rw [if_neg h13]
  rw [Bool.not_eq_true] at h13
  rw [h13, Bool.false_or]
  by_cases h14 : isPinterestProfile s = true
  · rw [if_pos h14, h14]
    simp
  rw [if_neg h14]
  rw [Bool.not_eq_true] at h14
  rw [h14, Bool.false_or]
  by_cases h15 : isSnapchatHandle s = true
  · rw [if_pos h15, h15]
    simp
  rw [if_neg h15]
  rw [Bool.not_eq_true] at h15
  rw [h15, Bool.false_or]
  by_cases h16 : isTumblrBlog s = true
  · rw [if_pos h16, h16]
    simp
  rw [if_neg h16]
  rw [Bool.not_eq_true] at h16
  rw [h16, Bool.false_or]
  by_cases h17 : isMacAddr s = true
  · rw [if_pos h17, h17]
    simp
  rw [if_neg h17]
  rw [Bool.not_eq_true] at h17
  rw [h17, Bool.false_or]
  by_cases h18 : isBitcoinAddress s = true
  · rw [if_pos h18, h18]
    simp
  rw [if_neg h18]
  rw [Bool.not_eq_true] at h18
  rw [h18]
  simp

end entities

namespace workerpool

lemma containsKey_iff_find (lru : LRUCache) (key : String) :
    lru.containsKey key = true ↔
      (lru.entries.find? (fun e => e.1 == key)).isSome = true := by
  unfold LRUCache.containsKey
  induction lru.entries with
  | nil => simp
  | cons e l ih =>
    by_cases h : e.1 == key <;> simp [List.find?, h, ih]

lemma Get_none (lru : LRUCache) (key : String)
    (h : lru.entries.find? (fun e => e.1 == key) = none) : lru.Get key = (none, lru) := by
  unfold LRUCache.Get
  rw [h]

lemma Get_some (lru : LRUCache) (key : String) (e : String × Task)
    (h : lru.entries.find? (fun e => e.1 == key) = some e) :
    lru.Get key =
      (some e.2, { lru with entries := (e.1, e.2) :: lru.entries.eraseP (fun x => x.1 == key) }) := by
  unfold LRUCache.Get
  rw [h]

lemma contains_Put_self (lru : LRUCache) (key : String) (v : Task)
    (hmax : 1 ≤ lru.maxSize) : (lru.Put key v).containsKey key = true := by
  unfold LRUCache.Put
  dsimp only
  split_ifs with h1 h2
  · simp [LRUCache.containsKey]
  · rcases hent : lru.entries with _ | ⟨x, xs⟩
    · exfalso
      rw [hent] at h2
      simp only [List.length_cons, List.length_nil] at h2
      push_cast at h2
      omega
    · rw [List.dropLast_cons₂]
      simp [LRUCache.containsKey]
  · simp [LRUCache.containsKey]

/-- C2: with the memory cache enabled and no persistent layer, one
`IsDuplicate` call is an exact test-and-insert against cache
residency: it answers Duplicate precisely when the fingerprint is
resident in the LRU cache, and in every case it leaves the fingerprint
resident afterwards (so while the fingerprint stays resident, every
further call for it answers Duplicate and at most the one claiming
call lets a job through). -/
theorem C2_dedup_test_and_insert (dc : DeduplicationCache) (task : Task)
    (persistentHit : Option Bool)
    (hmem : dc.config.EnableCache = true) (hper : dc.config.PersistentCache = false)
    (hmax : 1 ≤ dc.memoryCache.maxSize) :
    ((dc.IsDuplicate task persistentHit).1 = true ↔
      dc.memoryCache.containsKey (generateTaskID task) = true) ∧
    (dc.IsDuplicate task persistentHit).2.memoryCache.containsKey (generateTaskID task)
      = true := by
  unfold DeduplicationCache.IsDuplicate
  dsimp only
  rw [hmem, if_pos rfl]
  rcases hfind : dc.memoryCache.entries.find? (fun e => e.1 == generateTaskID task)
    with _ | e
  · rw [Get_none _ _ hfind]
    have hcont : dc.memoryCache.containsKey (generateTaskID task) = false := by
      rw [Bool.eq_false_iff]
      intro hc
      rw [containsKey_iff_find, hfind] at hc
      simp at hc
    dsimp only
    unfold dedupAfterMemCheck
    rw [hper]
    simp only [Bool.false_and, Bool.false_eq_true, if_false]
    unfold dedupInsert
    rw [hmem, if_pos rfl]
    constructor
    · simp [hcont]
    · exact contains_Put_self _ _ _ hmax
  · rw [Get_some _ _ e hfind]
    have hp := List.find?_some hfind
    constructor
    · simp only [true_iff]
      rw [containsKey_iff_find, hfind]
      rfl
    · simp [LRUCache.containsKey, hp]

/-- C2 witness: the exact test-and-insert property at a concrete
memory-only cache and task. -/
theorem C2_dedup_witness :
    (((⟨⟨true, 0, 10, false, 0, false⟩, ⟨10, []⟩, false⟩ :
        DeduplicationCache).IsDuplicate ⟨"t", "x", 0, 0⟩ none).1 = true ↔
      (⟨10, []⟩ : LRUCache).containsKey (generateTaskID ⟨"t", "x", 0, 0⟩) = true) ∧
    ((⟨⟨true, 0, 10, false, 0, false⟩, ⟨10, []⟩, false⟩ :
        DeduplicationCache).IsDuplicate ⟨"t", "x", 0, 0⟩ none).2.memoryCache.containsKey
      (generateTaskID ⟨"t", "x", 0, 0⟩) = true :=
  C2_dedup_test_and_insert ⟨⟨true, 0, 10, false, 0, false⟩, ⟨10, []⟩, false⟩ ⟨"t", "x", 0, 0⟩
    none rfl rfl (by decide)

end workerpool

namespace workerpool

lemma newCircuitBreaker_IsOpen_false (cfg : CircuitBreakerConfig) (now : Int) :
    (NewCircuitBreaker cfg).IsOpen now = false := by
  have hpos := (newCircuitBreaker_config_pos cfg).1
  unfold CircuitBreaker.IsOpen
  have hst : (NewCircuitBreaker cfg).state = .closed := rfl
  rw [hst]
  unfold CircuitBreaker.shouldOpen
  have h0 : (NewCircuitBreaker cfg).failureCount = 0 := rfl
  rw [h0]
  simp [not_le.mpr hpos]

lemma waitWithBackoff_fresh (config : DomainRateConfig) (now : Int) :
    waitWithBackoff config emptyTracker now none true =
      { outcome := .success, backoffSlept := 0, tokenConsumed := true,
        tracker := emptyTracker.recordSuccess } := by
  unfold waitWithBackoff cancelledBefore
  simp [BackoffTracker.isInBackoff, emptyTracker]

/-- C8 amended: `Submit` is always non-blocking at the queue.  With
deduplication disabled, no breaker yet recorded for the task and a
fresh rate-limiter state, a submit against a full queue fails
immediately with the queue-full error (there is no blocking variant a
caller could select), and a submit with queue space enqueues the task
stamped with its creation instant. -/
theorem C8_submit_nonblocking (wp : WorkerPool) (task : Task) (now : Int)
    (persistentHit : Option Bool)
    (hdedup : wp.config.EnableDeduplication = false)
    (hcb : wp.circuitBreakers = [])
    (hbt : wp.domainRateLimiter.backoffTrackers = [])
    (hid : task.ID ≠ "") :
    (wp.queueCap ≤ (wp.taskQueue.length : Int) →
      (wp.Submit task now none true persistentHit).1 = .queueFull ∧
      (wp.Submit task now none true persistentHit).2.taskQueue = wp.taskQueue) ∧
    ((wp.taskQueue.length : Int) < wp.queueCap →
      (wp.Submit task now none true persistentHit).1 = .enqueued ∧
      (wp.Submit task now none true persistentHit).2.taskQueue =
        wp.taskQueue ++ [{ task with Created := now }]) := by
  have hsub : ∀ (o : SubmitOutcome × WorkerPool),
      (wp.Submit task now none true persistentHit) = o →
      o = submitToQueue
        { wp with
            circuitBreakers := [(task.ID, NewCircuitBreaker wp.config.CircuitBreakerConfig)],
            domainRateLimiter :=
              { wp.domainRateLimiter with
                  backoffTrackers :=
                    updateStr [(ExtractDomain task, emptyTracker)] (ExtractDomain task)
                      emptyTracker.recordSuccess } }
        { task with Created := now } now none := by
    intro o ho
    rw [← ho]
    unfold WorkerPool.Submit WorkerPool.getCircuitBreaker DomainRateLimiter.ExtractDomainAndWait
      DomainRateLimiter.Wait DomainRateLimiter.getBackoffTracker DomainRateLimiter.GetDomainConfig
    simp [hid, hdedup, hcb, hbt, lookupStr, newCircuitBreaker_IsOpen_false,
      waitWithBackoff_fresh, updateStr]
  have heq := hsub _ rfl
  constructor
  · intro hfull
    rw [heq]
    unfold submitToQueue cancelledBefore
    rw [if_neg (not_lt.mpr hfull)]
    exact ⟨rfl, rfl⟩
  · intro hroom
    rw [heq]
    unfold submitToQueue
    rw [if_pos hroom]
    exact ⟨rfl, rfl⟩

end workerpool

namespace workerpool

/-- Deduplication configuration with the cache disabled. -/
def dedupCfgOff : DeduplicationConfig :=
  { EnableCache := false, CacheTTL := 0, MaxMemorySize := 10, EnableMetrics := false,
    CleanupInterval := 0, PersistentCache := false }

/-- Concrete pool configuration: one queue slot, dedup disabled. -/
def wpCfgC8 : Config :=
  { MaxWorkers := 2, QueueSize := 1, DefaultRateLimit := 10, DefaultBurst := 5,
    CircuitBreakerConfig := ⟨5, 60, 3, 60⟩, TaskTimeout := 30, EnableDeduplication := false,
    EnableMetrics := false, DeduplicationConfig := dedupCfgOff }

/-- A task already sitting in the queue. -/
def taskC8a : Task := { ID := "t0", Payload := "x", Priority := 0, Created := 0 }

/-- The task the caller submits. -/
def taskC8b : Task := { ID := "t1", Payload := "y", Priority := 0, Created := 0 }

/-- A pool whose one-slot queue is already full. -/
def wpC8full : WorkerPool :=
  { config := wpCfgC8, queueCap := 1, taskQueue := [taskC8a], deduplicationCache := none,
    circuitBreakers := [], domainRateLimiter := NewDomainRateLimiter none }

/-- The same pool with a free queue slot. -/
def wpC8room : WorkerPool :=
  { config := wpCfgC8, queueCap := 1, taskQueue := [], deduplicationCache := none,
    circuitBreakers := [], domainRateLimiter := NewDomainRateLimiter none }

/-- C8 counterexample: the only submit operation the pool offers, with
its context not cancelled, returns the queue-full error immediately on
a saturated queue instead of blocking until space is available; no
non-blocking flag exists that the caller could have supplied. -/
theorem C8_counterexample :
    (wpC8full.Submit taskC8b 0 none true none).1 = .queueFull ∧
    (wpC8full.Submit taskC8b 0 none true none).2.taskQueue = [taskC8a] := by decide

/-- C8 witness: the amended theorem at the full and at the non-full
concrete pool. -/
theorem C8_submit_witness :
    ((wpC8full.Submit taskC8b 0 none true none).1 = .queueFull ∧
      (wpC8full.Submit taskC8b 0 none true none).2.taskQueue = wpC8full.taskQueue) ∧
    ((wpC8room.Submit taskC8b 0 none true none).1 = .enqueued ∧
      (wpC8room.Submit taskC8b 0 none true none).2.taskQueue =
        wpC8room.taskQueue ++ [{ taskC8b with Created := 0 }]) :=
  ⟨(C8_submit_nonblocking wpC8full taskC8b 0 none rfl rfl rfl (by decide)).1 (by decide),
    (C8_submit_nonblocking wpC8room taskC8b 0 none rfl rfl rfl (by decide)).2 (by decide)⟩

end workerpool

namespace engine

open entities

lemma processResults_nil (st : EngineState) : processResults [] st = st := rfl

lemma processResults_cons (r : Trace) (rs : List Trace) (st : EngineState) :
    processResults (r :: rs) st =
      processResults rs
        (if r ∈ st.seen then st
         else { stack := st.stack ++ [r], seen := insert r st.seen,
                allTraces := st.allTraces ++ [r] }) := rfl

lemma mem_seen_processResults (rs : List Trace) (st : EngineState) (t : Trace) :
    t ∈ (processResults rs st).seen ↔ t ∈ st.seen ∨ t ∈ rs := by
  induction rs generalizing st with
  | nil => simp [processResults_nil]
  | cons r rs ih =>
    rw [processResults_cons]
    by_cases h : r ∈ st.seen
    · rw [if_pos h, ih]
      simp only [List.mem_cons]
      constructor
      · rintro (hs | hr)
        · exact Or.inl hs
        · exact Or.inr (Or.inr hr)
      · rintro (hs | rfl | hr)
        · exact Or.inl hs
        · exact Or.inl h
        · exact Or.inr hr
    · rw [if_neg h, ih]
      simp only [Finset.mem_insert, List.mem_cons]
      tauto

lemma mem_stack_processResults (rs : List Trace) (st : EngineState) (t : Trace) :
    t ∈ (processResults rs st).stack ↔ t ∈ st.stack ∨ (t ∈ rs ∧ t ∉ st.seen) := by
  induction rs generalizing st with
  | nil => simp [processResults_nil]
  | cons r rs ih =>
    rw [processResults_cons]
    by_cases h : r ∈ st.seen
    · rw [if_pos h, ih]
      simp only [List.mem_cons]
      constructor
      · rintro (hs | ⟨hr, hns⟩)
        · exact Or.inl hs
        · exact Or.inr ⟨Or.inr hr, hns⟩
      · rintro (hs | ⟨rfl | hr, hns⟩)
        · exact Or.inl hs
        · exact absurd h hns
        · exact Or.inr ⟨hr, hns⟩
    · rw [if_neg h, ih]
      simp only [Finset.mem_insert, List.mem_append, List.mem_singleton, List.mem_cons,
        List.not_mem_nil, or_false, not_or]
      constructor
      · rintro ((hs | rfl) | ⟨hr, hne, hns⟩)
        · exact Or.inl hs
        · exact Or.inr ⟨Or.inl rfl, h⟩
        · exact Or.inr ⟨Or.inr hr, hns⟩
      · rintro (hs | ⟨rfl | hr, hns⟩)
        · exact Or.inl (Or.inl hs)
        · exact Or.inl (Or.inr rfl)
        · by_cases hrt : t = r
          · exact Or.inl (Or.inr hrt)
          · exact Or.inr ⟨hr, hrt, hns⟩

lemma seen_mono_processResults (rs : List Trace) (st : EngineState) :
    st.seen ⊆ (processResults rs st).seen :=
  fun t ht => (mem_seen_processResults rs st t).mpr (Or.inl ht)

lemma processResults_measure (rs : List Trace) (st : EngineState) (N : Nat)
    (hN : (processResults rs st).seen.card ≤ N) :
    2 * (N - (processResults rs st).seen.card) + (processResults rs st).stack.length ≤
      2 * (N - st.seen.card) + st.stack.length := by
  induction rs generalizing st with
  | nil => simp [processResults_nil]
  | cons r rs ih =>
    rw [processResults_cons] at hN ⊢
    by_cases h : r ∈ st.seen
    · rw [if_pos h] at hN ⊢
      exact ih _ hN
    · rw [if_neg h] at hN ⊢
      have h1 := ih _ hN
      have hsub := seen_mono_processResults rs
        { stack := st.stack ++ [r], seen := insert r st.seen, allTraces := st.allTraces ++ [r] }
      have hcard : (insert r st.seen).card ≤ N :=
        le_trans (Finset.card_le_card hsub) hN
      have hc : (insert r st.seen).card = st.seen.card + 1 :=
        Finset.card_insert_of_not_mem h
      have hl : (st.stack ++ [r]).length = st.stack.length + 1 := by simp
      rw [hc, hl] at h1
      omega

/-- Invariant of the `ProcessInput` loop: stack and seen stay in the
finite closed universe, stack entries are reachable from the seed,
seen entries are reachable in at least one step, and every discovered
trace no longer pending on the stack has been fully expanded into
`seen`. -/
structure EngInv (expand : Trace → List Trace) (seed : Trace) (U : Finset Trace)
    (st : EngineState) : Prop where
  stackU : ∀ t ∈ st.stack, t ∈ U
  seenU : ∀ t ∈ st.seen, t ∈ U
  stackReach : ∀ t ∈ st.stack, Reaches expand seed t
  seenReach : ∀ t ∈ st.seen, ReachPlus expand seed t
  closedSeen : ∀ t, (t = seed ∨ t ∈ st.seen) → t ∉ st.stack → ∀ u ∈ expand t, u ∈ st.seen

lemma processStep_eq (expand : Trace → List Trace) (maxC : Nat) (st : EngineState) :
    processStep expand maxC st =
      processResults ((st.stack.take (min st.stack.length maxC)).flatMap expand)
        { stack := st.stack.drop (min st.stack.length maxC), seen := st.seen,
          allTraces := st.allTraces } := rfl

lemma processStep_inv (expand : Trace → List Trace) (maxC : Nat) (seed : Trace)
    (U : Finset Trace) (hUclosed : ∀ t ∈ U, ∀ u ∈ expand t, u ∈ U)
    (st : EngineState) (hinv : EngInv expand seed U st) :
    EngInv expand seed U (processStep expand maxC st) := by
  have hbatch_sub : ∀ t ∈ st.stack.take (min st.stack.length maxC), t ∈ st.stack :=
    fun t ht => List.take_subset _ _ ht
  have hrest_sub : ∀ t ∈ st.stack.drop (min st.stack.length maxC), t ∈ st.stack :=
    fun t ht => List.drop_subset _ _ ht
  have hrs_reach : ∀ u ∈ (st.stack.take (min st.stack.length maxC)).flatMap expand,
      ReachPlus expand seed u := by
    intro u hu
    rcases List.mem_flatMap.mp hu with ⟨b, hb, hub⟩
    exact ⟨b, hinv.stackReach b (hbatch_sub b hb), hub⟩
  have hrs_U : ∀ u ∈ (st.stack.take (min st.stack.length maxC)).flatMap expand, u ∈ U := by
    intro u hu
    rcases List.mem_flatMap.mp hu with ⟨b, hb, hub⟩
    exact hUclosed b (hinv.stackU b (hbatch_sub b hb)) u hub
  have hmk := fun (u : Trace) =>
    mem_stack_processResults ((st.stack.take (min st.stack.length maxC)).flatMap expand)
      { stack := st.stack.drop (min st.stack.length maxC), seen := st.seen,
        allTraces := st.allTraces } u
  have hms := fun (u : Trace) =>
    mem_seen_processResults ((st.stack.take (min st.stack.length maxC)).flatMap expand)
      { stack := st.stack.drop (min st.stack.length maxC), seen := st.seen,
        allTraces := st.allTraces } u
  rw [processStep_eq]
  constructor
  · intro t ht
    rcases (hmk t).mp ht with h | ⟨hr, _⟩
    · exact hinv.stackU t (hrest_sub t h)
    · exact hrs_U t hr
  · intro t ht
    rcases (hms t).mp ht with h | hr
    · exact hinv.seenU t h
    · exact hrs_U t hr
  · intro t ht
    rcases (hmk t).mp ht with h | ⟨hr, _⟩
    · exact hinv.stackReach t (hrest_sub t h)
    · rcases hrs_reach t hr with ⟨s, hs, hts⟩
      exact Reaches.step s t hs hts
  · intro t ht
    rcases (hms t).mp ht with h | hr
    · exact hinv.seenReach t h
    · exact hrs_reach t hr
  · intro t htOr htns u hu
    have ht_rest : t ∉ st.stack.drop (min st.stack.length maxC) := by
      intro h
      exact htns ((hmk t).mpr (Or.inl h))
    have htBase : t = seed ∨ t ∈ st.seen := by
      rcases htOr with rfl | htSeen
      · exact Or.inl rfl
      · rcases (hms t).mp htSeen with h | hr
        · exact Or.inr h
        · by_cases hsn : t ∈ st.seen
          · exact Or.inr hsn
          · exact absurd ((hmk t).mpr (Or.inr ⟨hr, hsn⟩)) htns
    by_cases hb : t ∈ st.stack.take (min st.stack.length maxC)
    · exact (hms u).mpr (Or.inr (List.mem_flatMap.mpr ⟨t, hb, hu⟩))
    · have htStack : t ∉ st.stack := by
        rw [← List.take_append_drop (min st.stack.length maxC) st.stack]
        intro h
        rcases List.mem_append.mp h with h | h
        · exact hb h
        · exact ht_rest h
      exact (hms u).mpr (Or.inl (hinv.closedSeen t htBase htStack u hu))

lemma processStep_measure (expand : Trace → List Trace) (maxC : Nat) (hmc : 1 ≤ maxC)
    (U : Finset Trace) (st : EngineState)
    (hfinU : ∀ t ∈ (processStep expand maxC st).seen, t ∈ U)
    (hne : st.stack ≠ []) :
    2 * (U.card - (processStep expand maxC st).seen.card) +
        (processStep expand maxC st).stack.length <
      2 * (U.card - st.seen.card) + st.stack.length := by
  rw [processStep_eq] at hfinU ⊢
  have hcard :
      (processResults ((st.stack.take (min st.stack.length maxC)).flatMap expand)
        { stack := st.stack.drop (min st.stack.length maxC), seen := st.seen,
          allTraces := st.allTraces }).seen.card ≤ U.card :=
    Finset.card_le_card (fun t ht => hfinU t ht)
  have h1 := processResults_measure ((st.stack.take (min st.stack.length maxC)).flatMap expand)
    { stack := st.stack.drop (min st.stack.length maxC), seen := st.seen,
      allTraces := st.allTraces } U.card hcard
  dsimp only at h1
  rw [List.length_drop] at h1
  have hpos : 1 ≤ st.stack.length := List.length_pos.mpr hne
  have hbs : 1 ≤ min st.stack.length maxC := le_min hpos hmc
  omega

lemma processLoop_spec (expand : Trace → List Trace) (maxC : Nat) (seed : Trace)
    (U : Finset Trace) (hmc : 1 ≤ maxC)
    (hUclosed : ∀ t ∈ U, ∀ u ∈ expand t, u ∈ U) :
    ∀ (fuel : Nat) (st : EngineState), EngInv expand seed U st →
      2 * (U.card - st.seen.card) + st.stack.length < fuel →
      (processLoop expand maxC fuel st).stack = [] ∧
        EngInv expand seed U (processLoop expand maxC fuel st) := by
  intro fuel
  induction fuel with
  | zero => exact fun st _ h => absurd h (Nat.not_lt_zero _)
  | succ fuel ih =>
    intro st hinv hm
    have hunfold : processLoop expand maxC (fuel + 1) st =
        if st.stack = [] then st
        else processLoop expand maxC fuel (processStep expand maxC st) := rfl
    rw [hunfold]
    by_cases hst : st.stack = []
    · rw [if_pos hst]
      exact ⟨hst, hinv⟩
    · rw [if_neg hst]
      have hinv' := processStep_inv expand maxC seed U hUclosed st hinv
      have hdec := processStep_measure expand maxC hmc U st
        (fun t ht => hinv'.seenU t ht) hst
      exact ih (processStep expand maxC st) hinv' (by omega)

/-- C1 amended: for a finite trace graph (a finite set `U` containing
the classified seed and closed under plugin expansion) and a positive
concurrency bound, the scheduler empties its frontier within
`2|U| + 2` iterations, and the final `seen` set holds exactly the
traces reachable from the seed in one or more expansion steps - the
seed itself is never inserted at the initial step and belongs to
`seen` only when some plugin re-emits it. -/
theorem C1_seen_is_proper_reachable_set (expand : Trace → List Trace) (maxC fuel : Nat)
    (input : String) (U : Finset Trace) (hmc : 1 ≤ maxC)
    (hseedU : NewTrace input ∈ U)
    (hUclosed : ∀ t ∈ U, ∀ u ∈ expand t, u ∈ U)
    (hfuel : 2 * U.card + 1 < fuel) :
    (ProcessInput expand maxC fuel input).stack = [] ∧
    (∀ t, t ∈ (ProcessInput expand maxC fuel input).seen ↔
      ReachPlus expand (NewTrace input) t) := by
  unfold ProcessInput
  have hinv0 : EngInv expand (NewTrace input) U
      { stack := [NewTrace input], seen := ∅, allTraces := [] } := by
    constructor
    · intro t ht
      rw [List.mem_singleton] at ht
      subst ht
      exact hseedU
    · intro t ht
      simp at ht
    · intro t ht
      rw [List.mem_singleton] at ht
      subst ht
      exact Reaches.refl
    · intro t ht
      simp at ht
    · intro t htOr htns u hu
      rcases htOr with rfl | h
      · exact absurd (List.mem_singleton.mpr rfl) htns
      · simp at h
  have hm0 : 2 * (U.card - (∅ : Finset Trace).card) +
      ([NewTrace input].length) < fuel := by
    simp only [Finset.card_empty, Nat.sub_zero, List.length_singleton]
    omega
  obtain ⟨hstack, hinv⟩ := processLoop_spec expand maxC (NewTrace input) U hmc hUclosed fuel
    { stack := [NewTrace input], seen := ∅, allTraces := [] } hinv0 hm0
  refine ⟨hstack, ?_⟩
  intro t
  constructor
  · exact fun ht => hinv.seenReach t ht
  · rintro ⟨s, hs, hts⟩
    have hbase : s = NewTrace input ∨
        s ∈ (processLoop expand maxC fuel
          { stack := [NewTrace input], seen := ∅, allTraces := [] }).seen := by
      clear hts
      induction hs with
      | refl => exact Or.inl rfl
      | step a b ha hab ihA =>
        exact Or.inr (hinv.closedSeen a ihA (by rw [hstack]; exact List.not_mem_nil a) b hab)
    exact hinv.closedSeen s hbase (by rw [hstack]; exact List.not_mem_nil s) t hts

end engine

namespace engine

open entities

/-- The plugin set of scenario S1: for an email trace the two plugins
emit the username `test` and the domain `example.com`; no plugin is
registered for any other kind. -/
def expandS1 : Trace → List Trace := fun t =>
  if t.Type' = .email then
    [{ Value := "test", Type' := .username }, { Value := "example.com", Type' := .domain }]
  else []

set_option maxRecDepth 10000 in
/-- C1 counterexample: in the S1 run the loop does terminate with an
empty frontier, and `seen` holds the two emitted traces, but the seed
trace itself is never inserted into `seen` - contradicting the claimed
initial step that puts the seed into `seen` before the first batch. -/
theorem C1_counterexample :
    (ProcessInput expandS1 10 10 "test@example.com").stack = [] ∧
    NewTrace "test@example.com" ∉ (ProcessInput expandS1 10 10 "test@example.com").seen ∧
    ({ Value := "test", Type' := .username } : Trace) ∈
      (ProcessInput expandS1 10 10 "test@example.com").seen ∧
    ({ Value := "example.com", Type' := .domain } : Trace) ∈
      (ProcessInput expandS1 10 10 "test@example.com").seen := by decide

/-- The finite trace universe of scenario S1. -/
def US1 : Finset Trace :=
  {⟨"test@example.com", .email⟩, ⟨"test", .username⟩, ⟨"example.com", .domain⟩}

set_option maxRecDepth 10000 in
/-- C1 witness: the amended theorem applied to the concrete S1 run. -/
theorem C1_seen_witness :
    (ProcessInput expandS1 10 10 "test@example.com").stack = [] ∧
    (∀ t, t ∈ (ProcessInput expandS1 10 10 "test@example.com").seen ↔
      ReachPlus expandS1 (NewTrace "test@example.com") t) :=
  C1_seen_is_proper_reachable_set expandS1 10 10 "test@example.com" US1 (by decide) (by decide)
    (by decide) (by decide)

end engine
